import Mathlib

/-!
Shallow embedding of `tdc.py` (a Todoist command-line client): the in-memory
entity cache (`TodoistClient`), the partial-name resolvers, the task listing
pipeline (`list_tasks`), and the mutation commands, together with theorems
settling the specification claims.

Modelling conventions:
* Entity ids are `Nat`; Python `None` becomes `Option`.
* Python truthiness tests (`if pid:`, `if section_name:`) are modelled
  explicitly: `none`, `some 0` and `some ""` are falsy.
* The remote service (`todoist_api_python`) is a `Remote` record of
  `Except`-valued responses; every remote call is recorded in a fetch log so
  that "performs exactly one remote fetch" is a statement about the log.
* `sys.exit(1)` and uncaught exceptions are both modelled as `Except.error ()`.
* String operations model the Python ones on the fragment the program uses:
  `str.lower` is ASCII lowering, `str.strip`/`\s` use ASCII whitespace, and
  the `regex` module's `\p{Emoji}` property is modelled by `isEmojiChar`,
  a subset of the Unicode `Emoji=Yes` characters (ASCII `#`, `*`, `0`-`9`
  and the main pictographic blocks).
-/

deriving instance DecidableEq for Except

namespace Tdc

/-- A calendar date `(year, month, day)`; `datetime.date` comparison is
lexicographic on this triple. -/
abbrev PyDate := Nat × Nat × Nat

/-- `datetime.date` strict comparison, lexicographic on (year, month, day). -/
def dateLt (a b : PyDate) : Bool :=
  a.1 < b.1 || (a.1 == b.1 && (a.2.1 < b.2.1 || (a.2.1 == b.2.1 && a.2.2 < b.2.2)))

/-- A task's due specification: the parsed `%Y-%m-%d` calendar date (absent when
the `date` attribute is missing or empty), the recurring flag, and the display
string. -/
structure Due where
  date : Option PyDate
  is_recurring : Bool
  string : String
deriving DecidableEq, Repr

structure Project where
  id : Nat
  name : String
deriving DecidableEq, Repr

/-- A section (named `TodoSection` because `section` is a Lean keyword). -/
structure TodoSection where
  id : Nat
  name : String
  project_id : Nat
deriving DecidableEq, Repr

structure Label where
  id : Nat
  name : String
deriving DecidableEq, Repr

structure Task where
  id : Nat
  content : String
  project_id : Nat
  section_id : Option Nat
  parent_id : Option Nat
  priority : Nat
  due : Option Due
deriving DecidableEq, Repr

/-- Python truthiness of an optional id: `None` and `0` are falsy. -/
def pyTruthyN : Option Nat → Bool
  | none => false
  | some n => n != 0

/-- Python truthiness of an optional string: `None` and `""` are falsy. -/
def pyTruthyS : Option String → Bool
  | none => false
  | some s => s != ""

/-- Whitespace for `str.strip` and the regex `\s` class (ASCII fragment). -/
def pySpace (c : Char) : Bool :=
  c == ' ' || c == '\t' || c == '\n' || c == '\r' || c.toNat == 11 || c.toNat == 12

/-- Model of `str.lower` (ASCII lowering). -/
def pyLower (s : String) : String := String.mk (s.toList.map Char.toLower)

/-- Model of `str.strip()` with no argument: drop leading and trailing
whitespace. -/
def pyStrip (s : String) : String :=
  String.mk (((s.toList.dropWhile pySpace).reverse.dropWhile pySpace).reverse)

/-- Model of `str.isdigit()` on the ASCII fragment: non-empty and all digits. -/
def pyIsDigit (s : String) : Bool :=
  !s.toList.isEmpty && s.toList.all (fun c => '0' ≤ c && c ≤ '9')

/-- `needle in hay` for Python strings, on character lists. -/
def containsSub (needle : List Char) : List Char → Bool
  | [] => needle.isEmpty
  | c :: t => needle.isPrefixOf (c :: t) || containsSub needle t

/-- `needle in hay` for Python strings. -/
def strContains (needle hay : String) : Bool := containsSub needle.toList hay.toList

/-- Model of the `regex` module's `\p{Emoji}` character property (a subset of
the Unicode `Emoji=Yes` set: ASCII `#`, `*`, digits, ©, ®, the
Miscellaneous-Symbols/Dingbats range and the main emoji planes). -/
def isEmojiChar (c : Char) : Bool :=
  let n := c.toNat
  n == 0x23 || n == 0x2A || (0x30 ≤ n && n ≤ 0x39) ||
  n == 0xA9 || n == 0xAE ||
  (0x2600 ≤ n && n ≤ 0x27BF) ||
  (0x1F000 ≤ n && n ≤ 0x1FAFF)

/-- One left-to-right pass of `regex.sub(r"\p{Emoji}\s*", "", text)`: the flag
records that an emoji was just consumed, in which case following whitespace is
part of the match and is dropped. -/
def removeEmojiAux : Bool → List Char → List Char
  | _, [] => []
  | inEmoji, c :: rest =>
    if inEmoji && pySpace c then removeEmojiAux true rest
    else if isEmojiChar c then removeEmojiAux true rest
    else c :: removeEmojiAux false rest

/-- `remove_emojis` from the source: delete every emoji character together with
the whitespace run that follows it. -/
def remove_emojis (s : String) : String := String.mk (removeEmojiAux false s.toList)

/-- `maybe_strip_emojis`: apply `remove_emojis` only when the global
`STRIP_EMOJIS` flag (passed explicitly here) is set. -/
def maybe_strip_emojis (strip : Bool) (s : String) : String :=
  if strip then remove_emojis s else s

/-- The `N/A` sentinel rendered for missing lookups. -/
def NA : String := "[italic dim]N/A[/italic dim]"

/-- Remote fetch events, used as the fetch log. -/
inductive Fetch where
  | projects : Fetch
  | sections : Nat → Fetch
  | tasksOf : Nat → Fetch
  | tasksAll : Fetch
  | labels : Fetch
deriving DecidableEq, Repr

/-- The remote Todoist service: each operation either returns a value or fails
with a transport/service error. -/
structure Remote where
  projects : Except Unit (List Project)
  sections : Nat → Except Unit (List TodoSection)
  tasksOf : Nat → Except Unit (List Task)
  tasksAll : Except Unit (List Task)
  labels : Except Unit (List Label)
  add_task : Except Unit Task
  add_reminder : Except Unit Unit
  delete_task : Except Unit Unit
  add_project : Except Unit Project
  add_section : Except Unit TodoSection
  add_label : Except Unit Label

/-- The `TodoistClient` cache: `_projects`, `_sections` (keyed by project id)
and `_tasks` (keyed by project id, with `none` playing the role of the
`"all"` sentinel key). -/
structure ClientState where
  projects : Option (List Project)
  sections : Nat → Option (List TodoSection)
  tasks : Option Nat → Option (List Task)

/-- The cache as constructed at the start of a command invocation: empty. -/
def initState : ClientState :=
  { projects := none, sections := fun _ => none, tasks := fun _ => none }

/-- `TodoistClient.get_projects`: return the cached list, fetching it on the
first call; a failed fetch leaves the slot unpopulated. -/
def get_projects (r : Remote) (s : ClientState) :
    Except Unit (List Project) × ClientState × List Fetch :=
  match s.projects with
  | some ps => (.ok ps, s, [])
  | none =>
    match r.projects with
    | .ok ps => (.ok ps, { s with projects := some ps }, [.projects])
    | .error e => (.error e, s, [.projects])

/-- `TodoistClient.get_sections`: one fetch per distinct project id. -/
def get_sections (r : Remote) (s : ClientState) (project_id : Nat) :
    Except Unit (List TodoSection) × ClientState × List Fetch :=
  match s.sections project_id with
  | some ss => (.ok ss, s, [])
  | none =>
    match r.sections project_id with
    | .ok ss =>
      (.ok ss,
       { s with sections := fun k => if k == project_id then some ss else s.sections k },
       [.sections project_id])
    | .error e => (.error e, s, [.sections project_id])

/-- The remote call `get_tasks` performs for an uncached key: `if project_id:`
is a truthiness test, so a falsy id fetches all tasks. -/
def taskFetch (r : Remote) (project_id : Option Nat) : Except Unit (List Task) × Fetch :=
  match project_id with
  | some pid => if pid != 0 then (r.tasksOf pid, .tasksOf pid) else (r.tasksAll, .tasksAll)
  | none => (r.tasksAll, .tasksAll)

/-- `TodoistClient.get_tasks`: the scope key is the project id or the `"all"`
sentinel (`none`); one fetch per distinct key. -/
def get_tasks (r : Remote) (s : ClientState) (project_id : Option Nat) :
    Except Unit (List Task) × ClientState × List Fetch :=
  match s.tasks project_id with
  | some ts => (.ok ts, s, [])
  | none =>
    match taskFetch r project_id with
    | (.ok ts, f) =>
      (.ok ts,
       { s with tasks := fun k => if k == project_id then some ts else s.tasks k },
       [f])
    | (.error e, f) => (.error e, s, [f])

/-- `TodoistClient.invalidate_tasks`: pop the given project's slot when the id
is truthy, and always pop the `"all"` slot. -/
def invalidate_tasks (s : ClientState) (project_id : Option Nat) : ClientState :=
  let s1 :=
    if pyTruthyN project_id then
      { s with tasks := fun k => if k == project_id then none else s.tasks k }
    else s
  { s1 with tasks := fun k => if k == (none : Option Nat) then none else s1.tasks k }

/-- `TodoistClient.invalidate_projects`. -/
def invalidate_projects (s : ClientState) : ClientState := { s with projects := none }

/-- `TodoistClient.invalidate_sections`. -/
def invalidate_sections (s : ClientState) (project_id : Nat) : ClientState :=
  { s with sections := fun k => if k == project_id then none else s.sections k }

/-- Sequencing of cache-using steps: propagate the error, thread the state and
concatenate the fetch logs. -/
def ebind {α β : Type} (x : Except Unit α × ClientState × List Fetch)
    (f : α → ClientState → Except Unit β × ClientState × List Fetch) :
    Except Unit β × ClientState × List Fetch :=
  match x with
  | (.ok a, s, l) =>
    match f a s with
    | (v, s', l') => (v, s', l ++ l')
  | (.error e, s, l) => (.error e, s, l)

/-- `sys.exit(1)` after a user-facing error message. -/
def efail {α : Type} (s : ClientState) : Except Unit α × ClientState × List Fetch :=
  (.error (), s, [])

/-- The pure body of `find_project_id_partial` once the cached projects are in
hand: an exact id-string scan for all-digit input, falling back to the first
case-insensitive substring match on names. -/
def project_scan (projects : List Project) (project_input : String) : Option Nat :=
  let exact :=
    if pyIsDigit project_input then
      projects.find? (fun p => toString p.id == project_input)
    else none
  match exact with
  | some p => some p.id
  | none =>
    (projects.find? (fun p => strContains (pyLower project_input) (pyLower p.name))).map
      Project.id

/-- `find_project_id_partial` (renamed: Lean reserves the suffix): fetch the
cached projects and scan them. -/
def find_project_id_part (r : Remote) (s : ClientState) (project_input : String) :
    Except Unit (Option Nat) × ClientState × List Fetch :=
  match get_projects r s with
  | (.ok ps, s', l) => (.ok (project_scan ps project_input), s', l)
  | (.error e, s', l) => (.error e, s', l)

/-- The pure body of `find_section_id_partial`: first case-insensitive
substring match on section names. -/
def section_scan (secs : List TodoSection) (name_part : String) : Option Nat :=
  (secs.find? (fun sec => strContains (pyLower name_part) (pyLower sec.name))).map
    TodoSection.id

/-- `find_section_id_partial` (renamed: Lean reserves the suffix). -/
def find_section_id_part (r : Remote) (s : ClientState) (project_id : Nat)
    (name_part : String) : Except Unit (Option Nat) × ClientState × List Fetch :=
  match get_sections r s project_id with
  | (.ok ss, s', l) => (.ok (section_scan ss name_part), s', l)
  | (.error e, s', l) => (.error e, s', l)

/-- The parsed due date of a task, when the due object exists and its `date`
attribute is a non-empty parseable string. -/
def due_on (t : Task) : Option PyDate :=
  match t.due with
  | some d => d.date
  | none => none

/-- The `--today` predicate: due calendar date equals the current date. -/
def matches_today (today : PyDate) (t : Task) : Bool :=
  match due_on t with
  | some d => d == today
  | none => false

/-- The `--overdue` predicate: due calendar date strictly before the current
date. -/
def matches_overdue (today : PyDate) (t : Task) : Bool :=
  match due_on t with
  | some d => dateLt d today
  | none => false

/-- The `--recurring` predicate: `t.due and getattr(t.due, "is_recurring",
False)`. -/
def task_recurring (t : Task) : Bool :=
  match t.due with
  | some d => d.is_recurring
  | none => false

/-- One insertion step of `{t.id: t for t in ...}`: a repeated id overwrites
the stored task but keeps the first-insertion position. -/
def upsertById (acc : List Task) (t : Task) : List Task :=
  if acc.any (fun u => u.id == t.id) then
    acc.map (fun u => if u.id == t.id then t else u)
  else acc ++ [t]

/-- `list({t.id: t for t in ts}.values())`: de-duplicate by task id, keeping
first-occurrence positions and last-occurrence values. -/
def dedupById (ts : List Task) : List Task := ts.foldl upsertById []

/-- Lines 183-211 of the source: the union of the requested `today`/`overdue`
predicates de-duplicated by id, then the independent `recurring` narrowing. -/
def temporal_filter (today : PyDate) (filter_today filter_overdue filter_recurring : Bool)
    (tasks : List Task) : List Task :=
  let tasks1 :=
    if filter_today || filter_overdue then
      dedupById ((if filter_today then tasks.filter (matches_today today) else []) ++
                 (if filter_overdue then tasks.filter (matches_overdue today) else []))
    else tasks
  if filter_recurring then tasks1.filter task_recurring else tasks1

/-- Membership and indexing into a Python dict comprehension `{key x: x for x in
xs}`: the value bound to `k` is the last `x` with `key x = k`. -/
def dictFind {α : Type} (key : α → Nat) (xs : List α) (k : Nat) : Option α :=
  xs.reverse.find? (fun x => key x == k)

/-- The sort key tuple built at lines 217-231: project name lower-cased (empty
when the project is unknown), section name lower-cased (empty when the task has
no section or the section column is off), task content lower-cased. -/
abbrev SKey := String × String × String

/-- Lexicographic code-point comparison of character lists, the semantics of
Python `<` on strings. -/
def charsLt : List Char → List Char → Bool
  | _, [] => false
  | [], _ :: _ => true
  | a :: as, b :: bs => a.toNat < b.toNat || (a.toNat == b.toNat && charsLt as bs)

/-- Python `<` on strings. -/
def strLtB (a b : String) : Bool := charsLt a.toList b.toList

/-- Python `<=` on strings (total order: `a <= b` iff not `b < a`). -/
def strLeB (a b : String) : Bool := !(strLtB b a)

/-- Python tuple `<=` on the three-string sort key. -/
def keyLe (a b : SKey) : Bool :=
  strLtB a.1 b.1 ||
    (a.1 == b.1 && (strLtB a.2.1 b.2.1 || (a.2.1 == b.2.1 && strLeB a.2.2 b.2.2)))

/-- The sort key of a task given the project dict and section mapping. -/
def sort_key (ps : List Project) (smap : List TodoSection) (t : Task) : SKey :=
  ( (match dictFind Project.id ps t.project_id with
     | some p => pyLower p.name
     | none => "")
  , (match t.section_id with
     | some sid =>
       match dictFind TodoSection.id smap sid with
       | some sec => pyLower sec.name
       | none => ""
     | none => "")
  , pyLower t.content )

/-- Key comparison between two tasks, as used by `tasks.sort(key=...)`. -/
def taskLe (ps : List Project) (smap : List TodoSection) (a b : Task) : Bool :=
  keyLe (sort_key ps smap a) (sort_key ps smap b)

/-- Stable insertion into an ascending list: walk past strictly smaller
elements, stop at the first element not strictly below `x` (ties included, so
earlier elements stay in front of later equal ones). -/
def insertLe {α : Type} (le : α → α → Bool) (x : α) : List α → List α
  | [] => [x]
  | y :: ys => if le y x && !(le x y) then y :: insertLe le x ys else x :: y :: ys

/-- `list.sort(key=...)`: the unique stable ascending order for the given
total preorder, realized as a stable insertion sort. -/
def pySort {α : Type} (le : α → α → Bool) (l : List α) : List α :=
  l.foldr (insertLe le) []

/-- A JSON value as emitted by the structured output mode. -/
inductive JVal where
  | jnull : JVal
  | jstr : String → JVal
  | jnat : Nat → JVal
deriving DecidableEq, Repr

/-- `maybe_strip_emojis(x) if x else None`: `None` and the empty string both
render as JSON `null`. -/
def jfield (strip : Bool) (x : Option String) : JVal :=
  match x with
  | some s => if s != "" then .jstr (maybe_strip_emojis strip s) else .jnull
  | none => .jnull

/-- One structured-mode entry (lines 233-260): a fixed set of seven fields,
inactive ones carrying `null`. -/
def json_entry (strip show_subtasks show_section_col : Bool) (ps : List Project)
    (smap : List TodoSection) (td : List Task) (t : Task) : List (String × JVal) :=
  let p_name := (dictFind Project.id ps t.project_id).map Project.name
  let s_name :=
    if show_section_col then
      match t.section_id with
      | some sid => (dictFind TodoSection.id smap sid).map TodoSection.name
      | none => none
    else none
  let parent_str :=
    if show_subtasks then
      match t.parent_id with
      | some pid => (dictFind Task.id td pid).map Task.content
      | none => none
    else none
  [("id", .jnat t.id),
   ("content", .jstr (maybe_strip_emojis strip t.content)),
   ("project", jfield strip p_name),
   ("priority", .jnat t.priority),
   ("due", match t.due with
           | some d => .jstr (maybe_strip_emojis strip d.string)
           | none => .jnull),
   ("section", jfield strip s_name),
   ("parent", jfield strip parent_str)]

/-- The table columns added at lines 264-274: optional ID, Content, optional
Parent Task, Project, optional Section, Priority, Due. -/
def table_headers (show_ids show_subtasks show_section_col : Bool) : List String :=
  (if show_ids then ["ID"] else []) ++ ["Content"] ++
  (if show_subtasks then ["Parent Task"] else []) ++ ["Project"] ++
  (if show_section_col then ["Section"] else []) ++ ["Priority", "Due"]

/-- One table row (lines 276-298); missing lookups render as the `N/A`
sentinel. -/
def table_row (strip show_ids show_subtasks show_section_col : Bool) (ps : List Project)
    (smap : List TodoSection) (td : List Task) (t : Task) : List String :=
  (if show_ids then [toString t.id] else []) ++
  [maybe_strip_emojis strip t.content] ++
  (if show_subtasks then
     [if pyTruthyN t.parent_id then
        match dictFind Task.id td (t.parent_id.getD 0) with
        | some u => maybe_strip_emojis strip u.content
        | none => NA
      else NA]
   else []) ++
  [match dictFind Project.id ps t.project_id with
   | some p => maybe_strip_emojis strip p.name
   | none => NA] ++
  (if show_section_col then
     [match t.section_id with
      | some sid =>
        match dictFind TodoSection.id smap sid with
        | some sec => maybe_strip_emojis strip sec.name
        | none => NA
      | none => NA]
   else []) ++
  [toString t.priority] ++
  [maybe_strip_emojis strip (match t.due with | some d => d.string | none => NA)]

/-- The rendered result of `list_tasks` in either output mode. -/
inductive TaskListOut where
  | jsonOut : List (List (String × JVal)) → TaskListOut
  | tableOut : List String → List (List String) → TaskListOut
deriving DecidableEq, Repr

/-- Options of `list_tasks`; `strip_emojis` carries the global flag. -/
structure ListOpts where
  show_ids : Bool := false
  show_subtasks : Bool := false
  project_name : Option String := none
  section_name : Option String := none
  output_json : Bool := false
  filter_today : Bool := false
  filter_overdue : Bool := false
  filter_recurring : Bool := false
  strip_emojis : Bool := false

/-- Lines 141-149: resolve the project scope (when a truthy project name is
given) and fetch the tasks for that scope or for `"all"`. -/
def scope_tasks (r : Remote) (s : ClientState) (project_name : Option String) :
    Except Unit (List Task) × ClientState × List Fetch :=
  if pyTruthyS project_name then
    ebind (find_project_id_part r s (project_name.getD "")) fun pidOpt s1 =>
      if pyTruthyN pidOpt then get_tasks r s1 pidOpt else efail s1
  else get_tasks r s none

/-- First-occurrence de-duplication, modelling the iteration over the set
`{t.project_id for t in tasks if t.section_id}` (Python set iteration order is
unspecified; this model fixes first-occurrence order). -/
def dedupFirstAux (seen : List Nat) : List Nat → List Nat
  | [] => []
  | x :: xs =>
    if seen.contains x then dedupFirstAux seen xs
    else x :: dedupFirstAux (x :: seen) xs

def dedupFirst (l : List Nat) : List Nat := dedupFirstAux [] l

/-- Fetch and merge the section lists of the given project ids, building the
incrementally-updated `section_mapping`. -/
def fetch_sections_list (r : Remote) (s : ClientState) :
    List Nat → Except Unit (List TodoSection) × ClientState × List Fetch
  | [] => (.ok [], s, [])
  | pid :: rest =>
    ebind (get_sections r s pid) fun secs s1 =>
    ebind (fetch_sections_list r s1 rest) fun more s2 =>
    (.ok (secs ++ more), s2, [])

/-- Lines 154-181: the section filter (requiring a project), or else the
section-column decision and the merged section-name lookup. Returns the
remaining tasks, the section mapping and the `show_section_col` flag. -/
def section_stage (r : Remote) (s : ClientState) (project_name section_name : Option String)
    (tasks1 : List Task) :
    Except Unit (List Task × List TodoSection × Bool) × ClientState × List Fetch :=
  if pyTruthyS section_name then
    if !pyTruthyS project_name then efail s
    else
      ebind (find_project_id_part r s (project_name.getD "")) fun pidOpt s1 =>
      if !pyTruthyN pidOpt then efail s1
      else
        let pid := pidOpt.getD 0
        ebind (find_section_id_part r s1 pid (section_name.getD "")) fun sidOpt s2 =>
        if !pyTruthyN sidOpt then efail s2
        else
          let sid := sidOpt.getD 0
          let tasks2 := tasks1.filter (fun t => t.section_id == some sid)
          ebind (get_sections r s2 pid) fun secs s3 =>
          (.ok (tasks2, secs, true), s3, [])
  else
    if tasks1.any (fun t => pyTruthyN t.section_id) then
      let upids := dedupFirst ((tasks1.filter (fun t => pyTruthyN t.section_id)).map Task.project_id)
      ebind (fetch_sections_list r s upids) fun smap s1 =>
      (.ok (tasks1, smap, true), s1, [])
    else (.ok (tasks1, [], false), s, [])

/-- `list_tasks`: scope resolution, subtask filter, section stage, temporal
union filter, project lookup, stable tuple sort, and rendering in the chosen
output mode. -/
def list_tasks (r : Remote) (s : ClientState) (today : PyDate) (o : ListOpts) :
    Except Unit TaskListOut × ClientState × List Fetch :=
  ebind (scope_tasks r s o.project_name) fun tasks s2 =>
  let tasks1 := if o.show_subtasks then tasks else tasks.filter (fun t => t.parent_id == none)
  ebind (section_stage r s2 o.project_name o.section_name tasks1) fun res s5 =>
  let smap := res.2.1
  let col := res.2.2
  let tasks3 := temporal_filter today o.filter_today o.filter_overdue o.filter_recurring res.1
  ebind (get_projects r s5) fun ps s6 =>
  let sorted := pySort (taskLe ps smap) tasks3
  if o.output_json then
    (.ok (.jsonOut (sorted.map (json_entry o.strip_emojis o.show_subtasks col ps smap tasks3))),
     s6, [])
  else
    (.ok (.tableOut (table_headers o.show_ids o.show_subtasks col)
            (sorted.map (table_row o.strip_emojis o.show_ids o.show_subtasks col ps smap tasks3))),
     s6, [])

/-- The duplicate-comparison normalization used by `create_task`:
`remove_emojis(content.strip().lower())`. -/
def norm_content (s : String) : String := remove_emojis (pyLower (pyStrip s))

/-- Outcome of a task creation that did not error out. -/
inductive CreateTaskOut where
  | duplicate : Task → CreateTaskOut
  | created : Task → Bool → CreateTaskOut
deriving DecidableEq, Repr

/-- Lines 345-359: perform the remote `add_task`, invalidate the task cache on
success, and attempt the optional reminder (its failure is a warning, recorded
in the `Bool` of `created`, and does not undo the creation). -/
def create_task_mutate (r : Remote) (s : ClientState) (reminder : Option String)
    (pid : Option Nat) : Except Unit CreateTaskOut × ClientState × List Fetch :=
  match r.add_task with
  | .error e => (.error e, s, [])
  | .ok newT =>
    let s1 := invalidate_tasks s pid
    if pyTruthyS reminder then
      match r.add_reminder with
      | .ok _ => (.ok (.created newT false), s1, [])
      | .error _ => (.ok (.created newT true), s1, [])
    else (.ok (.created newT false), s1, [])

/-- Lines 328-335: unless `force`, fetch the scope's tasks and skip the
mutation when an existing task's normalized content equals the new one. -/
def create_task_dup_check (r : Remote) (s : ClientState) (content : String)
    (reminder : Option String) (force : Bool) (pid : Option Nat) :
    Except Unit CreateTaskOut × ClientState × List Fetch :=
  if !force then
    ebind (if pyTruthyN pid then get_tasks r s pid else get_tasks r s none) fun tasks s1 =>
    match tasks.find? (fun t => norm_content t.content == norm_content content) with
    | some t => (.ok (.duplicate t), s1, [])
    | none => create_task_mutate r s1 reminder pid
  else create_task_mutate r s reminder pid

/-- Lines 320-327: the optional section scope of `create_task` (requires a
truthy resolved project id; the resolved section id only feeds the remote
request payload). -/
def create_task_sec (r : Remote) (s : ClientState) (content : String)
    (reminder : Option String) (section_name : Option String) (force : Bool)
    (pid : Option Nat) : Except Unit CreateTaskOut × ClientState × List Fetch :=
  if pyTruthyS section_name then
    if !pyTruthyN pid then efail s
    else
      ebind (find_section_id_part r s (pid.getD 0) (section_name.getD "")) fun sidOpt s1 =>
      if !pyTruthyN sidOpt then efail s1
      else create_task_dup_check r s1 content reminder force pid
  else create_task_dup_check r s content reminder force pid

/-- `create_task` (the `priority`/`due` options only populate the remote
request payload, which the `Remote` model abstracts). -/
def create_task (r : Remote) (s : ClientState) (content : String)
    (reminder : Option String) (project_name section_name : Option String)
    (force : Bool) : Except Unit CreateTaskOut × ClientState × List Fetch :=
  if pyTruthyS project_name then
    ebind (find_project_id_part r s (project_name.getD "")) fun pidOpt s1 =>
    if !pyTruthyN pidOpt then efail s1
    else create_task_sec r s1 content reminder section_name force pidOpt
  else create_task_sec r s content reminder section_name force none

/-- The matching loop of `delete_task` (lines 434-444): at the first task whose
trimmed lower-cased content equals the argument, attempt the remote delete;
invalidate the cache only on success, and exit without invalidating on
failure. `none` means no matching task was found (a non-fatal outcome). -/
def delete_task_loop (r : Remote) (s : ClientState) (content : String)
    (pid : Option Nat) : List Task → Except Unit (Option Task) × ClientState × List Fetch
  | [] => (.ok none, s, [])
  | t :: rest =>
    if pyLower (pyStrip t.content) == pyLower (pyStrip content) then
      match r.delete_task with
      | .ok _ => (.ok (some t), invalidate_tasks s pid, [])
      | .error e => (.error e, s, [])
    else delete_task_loop r s content pid rest

/-- `delete_task`. -/
def delete_task (r : Remote) (s : ClientState) (content : String)
    (project_name : Option String) : Except Unit (Option Task) × ClientState × List Fetch :=
  if pyTruthyS project_name then
    ebind (find_project_id_part r s (project_name.getD "")) fun pidOpt s1 =>
    if !pyTruthyN pidOpt then efail s1
    else
      ebind (if pyTruthyN pidOpt then get_tasks r s1 pidOpt else get_tasks r s1 none)
        fun ts s2 => delete_task_loop r s2 content pidOpt ts
  else
    ebind (get_tasks r s none) fun ts s2 => delete_task_loop r s2 content none ts

/-- Outcome of a create command for projects, sections or labels. -/
inductive CreateEntityOut where
  | duplicate : CreateEntityOut
  | created : CreateEntityOut
deriving DecidableEq, Repr

/-- `create_project`: duplicate check by trimmed case-insensitive name, remote
`add_project`, and project-cache invalidation on success. -/
def create_project (r : Remote) (s : ClientState) (name : String) :
    Except Unit CreateEntityOut × ClientState × List Fetch :=
  ebind (get_projects r s) fun ps s1 =>
  match ps.find? (fun p => pyLower (pyStrip p.name) == pyLower (pyStrip name)) with
  | some _ => (.ok .duplicate, s1, [])
  | none =>
    match r.add_project with
    | .ok _ => (.ok .created, invalidate_projects s1, [])
    | .error e => (.error e, s1, [])

/-- `create_section`: resolve the project, duplicate check on the project's
sections, remote `add_section`, section-cache invalidation on success. -/
def create_section (r : Remote) (s : ClientState) (project_name section_name : String) :
    Except Unit CreateEntityOut × ClientState × List Fetch :=
  ebind (find_project_id_part r s project_name) fun pidOpt s1 =>
  if !pyTruthyN pidOpt then efail s1
  else
    let pid := pidOpt.getD 0
    ebind (get_sections r s1 pid) fun ss s2 =>
    match ss.find? (fun sec => pyLower (pyStrip sec.name) == pyLower (pyStrip section_name)) with
    | some _ => (.ok .duplicate, s2, [])
    | none =>
      match r.add_section with
      | .ok _ => (.ok .created, invalidate_sections s2 pid, [])
      | .error e => (.error e, s2, [])

/-- `create_label`: labels are fetched straight from the remote service (there
is no label cache slot), duplicate-checked, then created; nothing is
invalidated because nothing is cached. -/
def create_label (r : Remote) (s : ClientState) (name : String) :
    Except Unit CreateEntityOut × ClientState × List Fetch :=
  match r.labels with
  | .error e => (.error e, s, [.labels])
  | .ok ls =>
    match ls.find? (fun la => pyLower (pyStrip la.name) == pyLower (pyStrip name)) with
    | some _ => (.ok .duplicate, s, [.labels])
    | none =>
      match r.add_label with
      | .ok _ => (.ok .created, s, [.labels])
      | .error e => (.error e, s, [.labels])

/-- `projects.sort(key=lambda x: x.name.lower())`. -/
def sortByNameLower (ps : List Project) : List Project :=
  pySort (fun a b => strLeB (pyLower a.name) (pyLower b.name)) ps

/-- `secs.sort(key=lambda x: x.name.lower())`. -/
def sortSecsByNameLower (ss : List TodoSection) : List TodoSection :=
  pySort (fun a b => strLeB (pyLower a.name) (pyLower b.name)) ss

/-- `labels.sort(key=lambda la: la.name.lower())`. -/
def sortLabelsByNameLower (ls : List Label) : List Label :=
  pySort (fun a b => strLeB (pyLower a.name) (pyLower b.name)) ls

/-- `list_projects`: fetch through the cache, then `projects.sort(...)`. The
Python sort mutates the cached list object in place, so the cache slot holds
the sorted sequence afterwards; the explicit slot update models that
aliasing. -/
def list_projects (r : Remote) (s : ClientState) :
    Except Unit (List Project) × ClientState × List Fetch :=
  match get_projects r s with
  | (.error e, s1, l) => (.error e, s1, l)
  | (.ok ps, s1, l) =>
    let sorted := sortByNameLower ps
    (.ok sorted, { s1 with projects := some sorted }, l)

/-- `list_sections`: resolve the project, fetch its sections through the
cache, then `secs.sort(...)` — again an in-place sort of the cached list
object, modelled by updating the slot. -/
def list_sections (r : Remote) (s : ClientState) (project_name : String) :
    Except Unit (List TodoSection) × ClientState × List Fetch :=
  ebind (find_project_id_part r s project_name) fun pidOpt s1 =>
  if !pyTruthyN pidOpt then efail s1
  else
    let pid := pidOpt.getD 0
    match get_sections r s1 pid with
    | (.error e, s2, l) => (.error e, s2, l)
    | (.ok ss, s2, l) =>
      let sorted := sortSecsByNameLower ss
      (.ok sorted,
       { s2 with sections := fun k => if k == pid then some sorted else s2.sections k }, l)

/-- `list_labels`: labels are fetched directly from the remote service on
every call — there is no label cache slot — and the sorted list is only the
local display copy. -/
def list_labels (r : Remote) (s : ClientState) :
    Except Unit (List Label) × ClientState × List Fetch :=
  match r.labels with
  | .error e => (.error e, s, [.labels])
  | .ok ls => (.ok (sortLabelsByNameLower ls), s, [.labels])

/-! ### Sample data used by the concrete witnesses and counterexamples -/

namespace Sample

def today : PyDate := (2026, 10, 12)

def p1 : Project := { id := 10, name := "Inbox" }

def p2 : Project := { id := 3, name := "beta" }

def sec1 : TodoSection := { id := 5, name := "SecA", project_id := 10 }

def t1 : Task :=
  { id := 1, content := "Alpha", project_id := 10, section_id := none,
    parent_id := none, priority := 1,
    due := some { date := some (2026, 10, 12), is_recurring := false, string := "today" } }

def t2 : Task :=
  { id := 2, content := "Beta", project_id := 10, section_id := none,
    parent_id := none, priority := 2,
    due := some { date := some (2026, 10, 11), is_recurring := false, string := "yesterday" } }

def t3 : Task :=
  { id := 3, content := "Gamma", project_id := 10, section_id := none,
    parent_id := none, priority := 3,
    due := some { date := some (2026, 10, 12), is_recurring := true, string := "every day" } }

def t4 : Task :=
  { id := 4, content := "Delta", project_id := 10, section_id := none,
    parent_id := none, priority := 4, due := none }

/-- A remote service where every operation succeeds. -/
def remoteOk : Remote :=
  { projects := .ok [p1, p2]
  , sections := fun _ => .ok [sec1]
  , tasksOf := fun _ => .ok [t1, t2]
  , tasksAll := .ok [t2, t1, t4, t3]
  , labels := .ok [{ id := 20, name := "beta" }, { id := 21, name := "Alpha" }]
  , add_task := .ok t1
  , add_reminder := .ok ()
  , delete_task := .ok ()
  , add_project := .ok p1
  , add_section := .ok sec1
  , add_label := .ok { id := 22, name := "new" } }

/-- A task whose content carries a leading emoji (U+1F4CC, `Emoji=Yes`). -/
def tEmoji : Task :=
  { id := 9, content := "📌Buy milk", project_id := 10, section_id := none,
    parent_id := none, priority := 1, due := none }

/-- A remote whose all-tasks scope holds only the emoji-content task. -/
def remoteEmoji : Remote := { remoteOk with tasksAll := .ok [tEmoji] }

/-- The cache state after projects have been fetched, used by witnesses. -/
def sProj : ClientState := { initState with projects := some [p1, p2] }

/-- `sProj` with the sections of project 10 also fetched. -/
def sProjSec : ClientState :=
  { sProj with sections := fun k => if k == 10 then some [sec1] else sProj.sections k }

/-- A remote service where every operation fails. -/
def remoteErr : Remote :=
  { projects := .error ()
  , sections := fun _ => .error ()
  , tasksOf := fun _ => .error ()
  , tasksAll := .error ()
  , labels := .error ()
  , add_task := .error ()
  , add_reminder := .error ()
  , delete_task := .error ()
  , add_project := .error ()
  , add_section := .error ()
  , add_label := .error () }

end Sample

/-! ### C1: single fetch per scope key, repeated gets hit the cache -/

/-- C1: for every scope key — projects, sections of a project id, tasks of a
project id or the `"all"` sentinel (`none`) — the first `get` call on an
uncached key performs exactly one remote fetch (a one-element fetch log) and
stores the result in that key's slot; a repeated `get` for the same key with no
intervening invalidation returns the identical cached sequence with an empty
fetch log (no second fetch). -/
theorem C1_cache_single_fetch (r : Remote) (s : ClientState) :
    (∀ ps, s.projects = none → r.projects = .ok ps →
      get_projects r s = (.ok ps, { s with projects := some ps }, [.projects]) ∧
      get_projects r { s with projects := some ps } =
        (.ok ps, { s with projects := some ps }, [])) ∧
    (∀ ps, s.projects = some ps → get_projects r s = (.ok ps, s, [])) ∧
    (∀ pid ss, s.sections pid = none → r.sections pid = .ok ss →
      ∃ s', get_sections r s pid = (.ok ss, s', [.sections pid]) ∧
        s'.sections pid = some ss ∧ get_sections r s' pid = (.ok ss, s', [])) ∧
    (∀ pid ss, s.sections pid = some ss → get_sections r s pid = (.ok ss, s, [])) ∧
    (∀ key ts, s.tasks key = none → (taskFetch r key).1 = .ok ts →
      ∃ s', get_tasks r s key = (.ok ts, s', [(taskFetch r key).2]) ∧
        s'.tasks key = some ts ∧ get_tasks r s' key = (.ok ts, s', [])) ∧
    (∀ key ts, s.tasks key = some ts → get_tasks r s key = (.ok ts, s, [])) := by
  refine ⟨?_, ?_, ?_, ?_, ?_, ?_⟩
  · intro ps h1 h2
    constructor
    · simp [get_projects, h1, h2]
    · simp [get_projects]
  · intro ps h1
    simp [get_projects, h1]
  · intro pid ss h1 h2
    refine ⟨{ s with sections := fun k => if k == pid then some ss else s.sections k }, ?_, ?_, ?_⟩
    · simp [get_sections, h1, h2]
    · simp
    · simp [get_sections]
  · intro pid ss h1
    simp [get_sections, h1]
  · intro key ts h1 h2
    rcases hf : taskFetch r key with ⟨v, f⟩
    rw [hf] at h2
    simp only at h2
    subst h2
    refine ⟨{ s with tasks := fun k => if k == key then some ts else s.tasks k }, ?_, ?_, ?_⟩
    · simp [get_tasks, h1, hf]
    · simp
    · simp [get_tasks]
  · intro key ts h1
    simp [get_tasks, h1]

/-- Witness for C1 at a concrete input: a cold projects slot is fetched once
and the repeated call is served from the cache with no fetch. -/
theorem C1_cache_single_fetch_witness :
    get_projects Sample.remoteOk initState =
      (.ok [Sample.p1, Sample.p2],
       { initState with projects := some [Sample.p1, Sample.p2] }, [.projects]) ∧
    get_projects Sample.remoteOk { initState with projects := some [Sample.p1, Sample.p2] } =
      (.ok [Sample.p1, Sample.p2],
       { initState with projects := some [Sample.p1, Sample.p2] }, []) :=
  (C1_cache_single_fetch Sample.remoteOk initState).1 [Sample.p1, Sample.p2] rfl rfl

/-! ### C9: failed fetches do not populate, failed mutations do not invalidate -/

/-- When a `get_tasks` call succeeds, the resulting state has the fetched list
readable in that key's slot. -/
theorem get_tasks_fst_ok_slot {r : Remote} {s : ClientState} {key : Option Nat}
    {ts : List Task} (h : (get_tasks r s key).1 = .ok ts) :
    ((get_tasks r s key).2.1).tasks key = some ts := by
  cases hk : s.tasks key with
  | some ts' =>
    simp [get_tasks, hk] at h ⊢
    simp_all
  | none =>
    rcases hf : taskFetch r key with ⟨v, f⟩
    cases v with
    | ok ts' =>
      simp [get_tasks, hk, hf] at h ⊢
      rw [h]
    | error e =>
      simp [get_tasks, hk, hf] at h

/-- The matching loop of `delete_task` with a failing remote delete: the first
match triggers the failed delete and the state is returned untouched. -/
theorem delete_task_loop_err (r : Remote) (s : ClientState) (content : String)
    (pid : Option Nat) (hre : r.delete_task = .error ()) :
    ∀ ts : List Task, (∃ t ∈ ts, pyLower (pyStrip t.content) = pyLower (pyStrip content)) →
      delete_task_loop r s content pid ts = (.error (), s, []) := by
  intro ts
  induction ts with
  | nil =>
    rintro ⟨t, ht, -⟩
    simp at ht
  | cons t0 rest ih =>
    rintro ⟨t, ht, hmatch⟩
    by_cases h0 : (pyLower (pyStrip t0.content) == pyLower (pyStrip content)) = true
    · simp [delete_task_loop, h0, hre]
    · have hrest : t ∈ rest := by
        rcases List.mem_cons.mp ht with h | h
        · exact absurd (beq_iff_eq.mpr (h ▸ hmatch)) h0
        · exact h
      simp only [delete_task_loop, h0, if_false, Bool.false_eq_true, ite_false]
      exact ih ⟨t, hrest, hmatch⟩

/-- C9: the cache is unchanged on error. A failed remote fetch (projects,
sections, or tasks of any scope key) leaves the cache state exactly as before
— the slot stays unpopulated, so a retry re-fetches — and a `delete_task`
whose remote delete fails performs no invalidation: the state is exactly the
post-read state, with the fetched task list still readable in its slot. -/
theorem C9_error_keeps_cache :
    (∀ (r : Remote) (s : ClientState), s.projects = none → r.projects = .error () →
      get_projects r s = (.error (), s, [.projects])) ∧
    (∀ (r : Remote) (s : ClientState) pid, s.sections pid = none →
      r.sections pid = .error () →
      get_sections r s pid = (.error (), s, [.sections pid])) ∧
    (∀ (r : Remote) (s : ClientState) key, s.tasks key = none →
      (taskFetch r key).1 = .error () →
      get_tasks r s key = (.error (), s, [(taskFetch r key).2])) ∧
    (∀ (r : Remote) (s : ClientState) content ts, r.delete_task = .error () →
      (get_tasks r s none).1 = .ok ts →
      (∃ t ∈ ts, pyLower (pyStrip t.content) = pyLower (pyStrip content)) →
      delete_task r s content none =
        (.error (), (get_tasks r s none).2.1, (get_tasks r s none).2.2) ∧
      ((get_tasks r s none).2.1).tasks none = some ts) := by
  refine ⟨?_, ?_, ?_, ?_⟩
  · intro r s h1 h2
    simp [get_projects, h1, h2]
  · intro r s pid h1 h2
    simp [get_sections, h1, h2]
  · intro r s key h1 h2
    rcases hf : taskFetch r key with ⟨v, f⟩
    rw [hf] at h2
    simp only at h2
    subst h2
    simp [get_tasks, h1, hf]
  · intro r s content ts hre hget hex
    rcases hg : get_tasks r s none with ⟨v, s2, l2⟩
    rw [hg] at hget
    simp only at hget
    subst hget
    constructor
    · have hloop := delete_task_loop_err r s2 content none hre ts hex
      simp [delete_task, pyTruthyS, ebind, hg, hloop]
    · have := @get_tasks_fst_ok_slot r s none ts (by rw [hg])
      rw [hg] at this
      exact this

/-- Witness for C9 at concrete inputs: a failing projects fetch leaves the
empty cache empty, and a failing remote delete after a successful task read
leaves the read slot intact. -/
theorem C9_error_keeps_cache_witness :
    get_projects Sample.remoteErr initState = (.error (), initState, [.projects]) ∧
    (delete_task { Sample.remoteOk with delete_task := .error () } initState "alpha" none =
       (.error (),
        (get_tasks { Sample.remoteOk with delete_task := .error () } initState none).2.1,
        (get_tasks { Sample.remoteOk with delete_task := .error () } initState none).2.2) ∧
     ((get_tasks { Sample.remoteOk with delete_task := .error () } initState none).2.1).tasks
        none = some [Sample.t2, Sample.t1, Sample.t4, Sample.t3]) :=
  ⟨C9_error_keeps_cache.1 Sample.remoteErr initState rfl rfl,
   C9_error_keeps_cache.2.2.2 { Sample.remoteOk with delete_task := .error () } initState
     "alpha" [Sample.t2, Sample.t1, Sample.t4, Sample.t3] rfl rfl
     ⟨Sample.t1, by decide, by decide⟩⟩

/-! ### C3: mutations invalidate the affected task slots -/

/-- `invalidate_tasks` always clears the `"all"` sentinel slot. -/
theorem invalidate_tasks_none_slot (s : ClientState) (pid : Option Nat) :
    (invalidate_tasks s pid).tasks none = none := by
  simp [invalidate_tasks]

/-- `invalidate_tasks` clears the given project's slot when the id is truthy. -/
theorem invalidate_tasks_pid_slot (s : ClientState) (pid : Option Nat)
    (h : pyTruthyN pid = true) : (invalidate_tasks s pid).tasks pid = none := by
  cases pid with
  | none => simp [pyTruthyN] at h
  | some n =>
    have hn : n ≠ 0 := by simpa [pyTruthyN] using h
    simp [invalidate_tasks, pyTruthyN, hn]

/-- A successful `create_task` remote mutation ends in the invalidated state. -/
theorem create_task_mutate_created {r : Remote} {s : ClientState} {reminder : Option String}
    {pid : Option Nat} {t : Task} {w : Bool} {s' : ClientState} {l : List Fetch}
    (h : create_task_mutate r s reminder pid = (.ok (.created t w), s', l)) :
    s' = invalidate_tasks s pid := by
  unfold create_task_mutate at h
  repeat' split at h
  all_goals simp_all

/-- Through the duplicate check: a `created` outcome ends in a state obtained
by `invalidate_tasks · pid` from some intermediate state. -/
theorem create_task_dup_created {r : Remote} {s : ClientState} {content : String}
    {reminder : Option String} {force : Bool} {pid : Option Nat} {t : Task} {w : Bool}
    {s' : ClientState} {l : List Fetch}
    (h : create_task_dup_check r s content reminder force pid = (.ok (.created t w), s', l)) :
    ∃ s0, s' = invalidate_tasks s0 pid := by
  unfold create_task_dup_check at h
  split at h
  · rcases hg : (if pyTruthyN pid then get_tasks r s pid else get_tasks r s none)
      with ⟨v, s1, l1⟩
    simp only [ebind, hg] at h
    cases v with
    | error e => simp at h
    | ok ts =>
      simp only at h
      split at h
      · simp at h
      · rcases hm : create_task_mutate r s1 reminder pid with ⟨mv, ms, ml⟩
        simp only [hm] at h
        simp at h
        obtain ⟨hv, hs, -⟩ := h
        exact ⟨s1, by rw [← hs]; exact create_task_mutate_created (hv ▸ hm)⟩
  · exact ⟨s, create_task_mutate_created h⟩

/-- Through the optional section scope: a `created` outcome ends in a state
obtained by `invalidate_tasks · pid` from some intermediate state. -/
theorem create_task_sec_created {r : Remote} {s : ClientState} {content : String}
    {reminder : Option String} {sname : Option String} {force : Bool} {pid : Option Nat}
    {t : Task} {w : Bool} {s' : ClientState} {l : List Fetch}
    (h : create_task_sec r s content reminder sname force pid = (.ok (.created t w), s', l)) :
    ∃ s0, s' = invalidate_tasks s0 pid := by
  unfold create_task_sec at h
  split at h
  · split at h
    · simp [efail] at h
    · rcases hf : find_section_id_part r s (pid.getD 0) (sname.getD "") with ⟨v, s1, l1⟩
      simp only [ebind, hf] at h
      cases v with
      | error e => simp at h
      | ok sidOpt =>
        simp only at h
        split at h
        · simp [efail] at h
        · rcases hd : create_task_dup_check r s1 content reminder force pid with ⟨dv, ds, dl⟩
          simp only [hd] at h
          simp at h
          obtain ⟨hv, hs, -⟩ := h
          obtain ⟨s0, h0⟩ := create_task_dup_created (hv ▸ hd)
          exact ⟨s0, by rw [← hs, h0]⟩
  · exact create_task_dup_created h

/-- C3: `invalidate_tasks` always clears the `"all"` slot; with a truthy
project id it also clears that project's slot; and a successful `create_task`
(outcome `created`) leaves a state in which the `"all"` slot is cleared and,
when a project scope was resolved to a truthy id `p`, the slot of `p` is
cleared as well — no stale task slot of the mutated scope remains readable. -/
theorem C3_mutation_invalidates :
    (∀ (s : ClientState) pid, (invalidate_tasks s pid).tasks none = none) ∧
    (∀ (s : ClientState) pid, pyTruthyN pid = true →
      (invalidate_tasks s pid).tasks pid = none) ∧
    (∀ (r : Remote) (s : ClientState) content reminder pname sname force t w,
      (create_task r s content reminder pname sname force).1 = .ok (.created t w) →
      ((create_task r s content reminder pname sname force).2.1).tasks none = none ∧
      (∀ pn p, pname = some pn → pn ≠ "" →
        (find_project_id_part r s pn).1 = .ok (some p) → p ≠ 0 →
        ((create_task r s content reminder pname sname force).2.1).tasks (some p) = none)) := by
  refine ⟨invalidate_tasks_none_slot, invalidate_tasks_pid_slot, ?_⟩
  intro r s content reminder pname sname force t w h
  rcases hc : create_task r s content reminder pname sname force with ⟨v, s', l⟩
  rw [hc] at h
  simp only at h
  subst h
  unfold create_task at hc
  by_cases hpn : pyTruthyS pname = true
  · rw [if_pos hpn] at hc
    rcases hf : find_project_id_part r s (pname.getD "") with ⟨fv, s1, l1⟩
    simp only [ebind, hf] at hc
    cases fv with
    | error e => simp at hc
    | ok pidOpt =>
      simp only at hc
      split at hc
      · simp [efail] at hc
      · rcases hs : create_task_sec r s1 content reminder sname force pidOpt
          with ⟨sv, ss, sl⟩
        simp only [hs] at hc
        simp at hc
        obtain ⟨hv, hss, -⟩ := hc
        obtain ⟨s0, h0⟩ := create_task_sec_created (hv ▸ hs)
        constructor
        · rw [← hss, h0]; exact invalidate_tasks_none_slot s0 pidOpt
        · intro pn p hpname hpne hfind hp0
          have hgd : pname.getD "" = pn := by rw [hpname]; rfl
          rw [hgd] at hf
          rw [hf] at hfind
          simp only at hfind
          have hpid : pidOpt = some p := by
            cases hfind
            rfl
          subst hpid
          rw [← hss, h0]
          exact invalidate_tasks_pid_slot s0 (some p) (by simp [pyTruthyN, hp0])
  · rw [if_neg hpn] at hc
    obtain ⟨s0, h0⟩ := create_task_sec_created hc
    constructor
    · rw [h0]; exact invalidate_tasks_none_slot s0 none
    · intro pn p hpname hpne hfind hp0
      rw [hpname] at hpn
      simp [pyTruthyS] at hpn
      exact absurd hpn hpne

/-- Witness for C3 at a concrete input: creating a task in the project matching
"Inb" (resolved id 10) succeeds and leaves both the project-10 slot and the
`"all"` slot cleared. -/
theorem C3_mutation_invalidates_witness :
    (create_task Sample.remoteOk initState "New task" none (some "Inb") none false).1 =
      .ok (.created Sample.t1 false) ∧
    ((create_task Sample.remoteOk initState "New task" none (some "Inb") none
        false).2.1).tasks none = none ∧
    ((create_task Sample.remoteOk initState "New task" none (some "Inb") none
        false).2.1).tasks (some 10) = none := by
  have h : (create_task Sample.remoteOk initState "New task" none (some "Inb") none
      false).1 = .ok (.created Sample.t1 false) := by decide
  have hmain := C3_mutation_invalidates.2.2 Sample.remoteOk initState "New task" none
    (some "Inb") none false Sample.t1 false h
  exact ⟨h, hmain.1, hmain.2 "Inb" 10 rfl (by decide) (by decide) (by decide)⟩

/-! ### C6: partial-name project resolution -/

/-- `find?` returns the first element of a decomposed list whose prefix has no
match. -/
theorem find?_append_first {α : Type} (p : α → Bool) (l1 : List α) (x : α) (l2 : List α)
    (h1 : ∀ y ∈ l1, p y = false) (hx : p x = true) :
    (l1 ++ x :: l2).find? p = some x := by
  induction l1 with
  | nil => simp [List.find?_cons_of_pos, hx]
  | cons a as ih =>
    have ha : p a = false := h1 a (List.mem_cons_self a as)
    rw [List.cons_append, List.find?_cons_of_neg _ (by simp [ha])]
    exact ih fun y hy => h1 y (List.mem_cons_of_mem a hy)

/-- C6: with the project sequence cached, resolution of an input string
proceeds in cache iteration order: an all-digit input is first resolved by
exact id-string match (the first such project wins); otherwise — non-digit
input, or no exact id match — the first project whose lower-cased name
contains the lower-cased input as a substring wins, and the result is
not-found (`none`) when no name contains it. No remote fetch occurs and the
state is unchanged. -/
theorem C6_name_resolution (r : Remote) (s : ClientState) (ps : List Project) (inp : String)
    (hc : s.projects = some ps) :
    (∀ l1 p l2, pyIsDigit inp = true → ps = l1 ++ p :: l2 → toString p.id = inp →
      (∀ q ∈ l1, toString q.id ≠ inp) →
      find_project_id_part r s inp = (.ok (some p.id), s, [])) ∧
    ((pyIsDigit inp = false ∨ ∀ q ∈ ps, toString q.id ≠ inp) →
      (∀ l1 p l2, ps = l1 ++ p :: l2 →
        strContains (pyLower inp) (pyLower p.name) = true →
        (∀ q ∈ l1, strContains (pyLower inp) (pyLower q.name) = false) →
        find_project_id_part r s inp = (.ok (some p.id), s, [])) ∧
      ((∀ q ∈ ps, strContains (pyLower inp) (pyLower q.name) = false) →
        find_project_id_part r s inp = (.ok none, s, []))) := by
  have hget : get_projects r s = (.ok ps, s, []) := by simp [get_projects, hc]
  constructor
  · intro l1 p l2 hd hsplit hid hl1
    have hfind : ps.find? (fun q => toString q.id == inp) = some p := by
      rw [hsplit]
      exact find?_append_first _ l1 p l2
        (fun y hy => by simp [hl1 y hy]) (by simp [hid])
    simp [find_project_id_part, hget, project_scan, hd, hfind]
  · intro hno
    have hexact :
        (if pyIsDigit inp then ps.find? (fun q => toString q.id == inp) else none) = none := by
      rcases hno with hd | hall
      · simp [hd]
      · rcases hdig : pyIsDigit inp with _ | _
        · simp
        · simp only [if_pos rfl]
          exact List.find?_eq_none.mpr fun q hq => by simp [hall q hq]
    constructor
    · intro l1 p l2 hsplit hp hl1
      have hfind :
          ps.find? (fun q => strContains (pyLower inp) (pyLower q.name)) = some p := by
        rw [hsplit]
        exact find?_append_first _ l1 p l2 (fun y hy => hl1 y hy) hp
      simp [find_project_id_part, hget, project_scan, hexact, hfind]
    · intro hall
      have hfind :
          ps.find? (fun q => strContains (pyLower inp) (pyLower q.name)) = none :=
        List.find?_eq_none.mpr fun q hq => by simp [hall q hq]
      simp [find_project_id_part, hget, project_scan, hexact, hfind]

/-- Witness for C6 at concrete inputs: given cached projects
`["Project 10" (id 3), "Seven" (id 7)]` plus `"10" (id 10)`, the all-digit
input "10" resolves to id 10 by exact match; the input "seven" resolves to
id 7 by first substring match; the input "zzz" is not found. -/
theorem C6_name_resolution_witness :
    find_project_id_part Sample.remoteOk
      { initState with
        projects := some [⟨3, "Project 10"⟩, ⟨7, "Seven"⟩, ⟨10, "ten"⟩] } "10" =
      (.ok (some 10),
       { initState with
         projects := some [⟨3, "Project 10"⟩, ⟨7, "Seven"⟩, ⟨10, "ten"⟩] }, []) ∧
    find_project_id_part Sample.remoteOk
      { initState with
        projects := some [⟨3, "Project 10"⟩, ⟨7, "Seven"⟩, ⟨10, "ten"⟩] } "seven" =
      (.ok (some 7),
       { initState with
         projects := some [⟨3, "Project 10"⟩, ⟨7, "Seven"⟩, ⟨10, "ten"⟩] }, []) ∧
    find_project_id_part Sample.remoteOk
      { initState with
        projects := some [⟨3, "Project 10"⟩, ⟨7, "Seven"⟩, ⟨10, "ten"⟩] } "zzz" =
      (.ok none,
       { initState with
         projects := some [⟨3, "Project 10"⟩, ⟨7, "Seven"⟩, ⟨10, "ten"⟩] }, []) := by
  refine ⟨?_, ?_, ?_⟩
  · exact (C6_name_resolution Sample.remoteOk _ _ "10" rfl).1
      [⟨3, "Project 10"⟩, ⟨7, "Seven"⟩] ⟨10, "ten"⟩ [] (by decide) rfl (by decide)
      (by decide)
  · exact ((C6_name_resolution Sample.remoteOk _ _ "seven" rfl).2
      (Or.inl (by decide))).1 [⟨3, "Project 10"⟩] ⟨7, "Seven"⟩ [⟨10, "ten"⟩] rfl
      (by decide) (by decide)
  · exact ((C6_name_resolution Sample.remoteOk _ _ "zzz" rfl).2
      (Or.inl (by decide))).2 (by decide)

/-! ### Order lemmas for the sort-key comparison -/

theorem charsLt_irrefl : ∀ l : List Char, charsLt l l = false
  | [] => rfl
  | a :: as => by simp [charsLt, charsLt_irrefl as]

theorem charsLt_trans : ∀ a b c : List Char,
    charsLt a b = true → charsLt b c = true → charsLt a c = true
  | _, [], _, h1, _ => by simp [charsLt] at h1
  | _, _ :: _, [], _, h2 => by simp [charsLt] at h2
  | [], _ :: _, _ :: _, _, _ => rfl
  | x :: xs, y :: ys, z :: zs, h1, h2 => by
    simp only [charsLt, Bool.or_eq_true, Bool.and_eq_true, decide_eq_true_eq,
      beq_iff_eq] at h1 h2 ⊢
    rcases h1 with h1 | ⟨h1e, h1r⟩
    · rcases h2 with h2 | ⟨h2e, h2r⟩
      · exact Or.inl (Nat.lt_trans h1 h2)
      · exact Or.inl (h2e ▸ h1)
    · rcases h2 with h2 | ⟨h2e, h2r⟩
      · exact Or.inl (h1e ▸ h2)
      · exact Or.inr ⟨h1e.trans h2e, charsLt_trans xs ys zs h1r h2r⟩

theorem charsLt_connex : ∀ a b : List Char,
    charsLt a b = false → charsLt b a = false → a = b
  | [], [], _, _ => rfl
  | [], _ :: _, h1, _ => by simp [charsLt] at h1
  | _ :: _, [], _, h2 => by simp [charsLt] at h2
  | x :: xs, y :: ys, h1, h2 => by
    simp only [charsLt, Bool.or_eq_false_iff, Bool.and_eq_false_iff,
      decide_eq_false_iff_not, Nat.not_lt, beq_eq_false_iff_ne, ne_eq] at h1 h2
    obtain ⟨h1n, h1r⟩ := h1
    obtain ⟨h2n, h2r⟩ := h2
    have hxy : x.toNat = y.toNat := Nat.le_antisymm h2n h1n
    have hx : x = y := Char.ext (UInt32.ext hxy)
    subst hx
    rcases h1r with h | h
    · exact absurd rfl h
    · rcases h2r with h' | h'
      · exact absurd rfl h'
      · rw [charsLt_connex xs ys (by simpa using h) (by simpa using h')]

theorem charsLt_asymm {a b : List Char} (h : charsLt a b = true) : charsLt b a = false := by
  by_contra hc
  have hba : charsLt b a = true := by
    cases hb : charsLt b a
    · exact absurd hb hc
    · rfl
  have := charsLt_trans a b a h hba
  rw [charsLt_irrefl] at this
  cases this

theorem charsLt_split (x y z : List Char) (h : charsLt x z = true) :
    charsLt x y = true ∨ charsLt y z = true := by
  cases h1 : charsLt x y
  · cases h2 : charsLt y x
    · rw [charsLt_connex x y h1 h2] at h
      exact Or.inr h
    · exact Or.inr (charsLt_trans y x z h2 h)
  · exact Or.inl rfl

theorem strLtB_irrefl (s : String) : strLtB s s = false := charsLt_irrefl _

theorem strLtB_trans {a b c : String} (h1 : strLtB a b = true) (h2 : strLtB b c = true) :
    strLtB a c = true := charsLt_trans _ _ _ h1 h2

theorem strLtB_connex {a b : String} (h1 : strLtB a b = false) (h2 : strLtB b a = false) :
    a = b := by
  cases a with
  | mk da =>
    cases b with
    | mk db =>
      have : da = db := charsLt_connex da db h1 h2
      rw [this]

theorem strLeB_total (a b : String) : (strLeB a b || strLeB b a) = true := by
  cases h1 : strLtB a b
  · simp [strLeB, h1]
  · have h2 : strLtB b a = false := @charsLt_asymm a.toList b.toList h1
    simp [strLeB, h2]

theorem strLeB_trans {a b c : String} (h1 : strLeB a b = true) (h2 : strLeB b c = true) :
    strLeB a c = true := by
  simp only [strLeB, Bool.not_eq_true'] at h1 h2 ⊢
  cases hca : strLtB c a
  · rfl
  · rcases charsLt_split c.toList b.toList a.toList hca with h | h
    · rw [show charsLt c.toList b.toList = strLtB c b from rfl, h2] at h
      cases h
    · rw [show charsLt b.toList a.toList = strLtB b a from rfl, h1] at h
      cases h

theorem keyLe_refl (a : SKey) : keyLe a a = true := by
  simp [keyLe, strLeB, strLtB_irrefl]

theorem keyLe_of_eq {a b : SKey} (h : a = b) : keyLe a b = true := h ▸ keyLe_refl a

theorem keyLe_total (a b : SKey) : (keyLe a b || keyLe b a) = true := by
  cases h1 : strLtB a.1 b.1
  · cases h2 : strLtB b.1 a.1
    · have he : a.1 = b.1 := strLtB_connex h1 h2
      cases h3 : strLtB a.2.1 b.2.1
      · cases h4 : strLtB b.2.1 a.2.1
        · have he2 : a.2.1 = b.2.1 := strLtB_connex h3 h4
          have := strLeB_total a.2.2 b.2.2
          simp only [keyLe, h1, h2, he, he2, beq_self_eq_true, Bool.true_and,
            strLtB_irrefl, Bool.false_or]
          rcases Bool.or_eq_true_iff.mp this with h | h <;> simp [h]
        · simp [keyLe, h2, he, h4]
      · simp [keyLe, h1, he, h3]
    · simp [keyLe, h2]
  · simp [keyLe, h1]

theorem keyLe_trans {a b c : SKey} (h1 : keyLe a b = true) (h2 : keyLe b c = true) :
    keyLe a c = true := by
  simp only [keyLe, Bool.or_eq_true, Bool.and_eq_true, beq_iff_eq] at h1 h2 ⊢
  rcases h1 with h1 | ⟨h1e, h1r⟩
  · rcases h2 with h2 | ⟨h2e, h2r⟩
    · exact Or.inl (strLtB_trans h1 h2)
    · exact Or.inl (h2e ▸ h1)
  · rcases h2 with h2 | ⟨h2e, h2r⟩
    · exact Or.inl (h1e ▸ h2)
    · refine Or.inr ⟨h1e.trans h2e, ?_⟩
      rcases h1r with h1r | ⟨h1re, h1rr⟩
      · rcases h2r with h2r | ⟨h2re, h2rr⟩
        · exact Or.inl (strLtB_trans h1r h2r)
        · exact Or.inl (h2re ▸ h1r)
      · rcases h2r with h2r | ⟨h2re, h2rr⟩
        · exact Or.inl (h1re ▸ h2r)
        · exact Or.inr ⟨h1re.trans h2re, strLeB_trans h1rr h2rr⟩

/-! ### The stable sort: permutation, sortedness, stability -/

theorem insertLe_perm {α : Type} (le : α → α → Bool) (x : α) :
    ∀ l : List α, (insertLe le x l).Perm (x :: l)
  | [] => List.Perm.refl _
  | y :: ys => by
    unfold insertLe
    split
    · exact ((insertLe_perm le x ys).cons y).trans (List.Perm.swap x y ys)
    · exact List.Perm.refl _

theorem pySort_perm {α : Type} (le : α → α → Bool) :
    ∀ l : List α, (pySort le l).Perm l
  | [] => List.Perm.refl _
  | a :: l => by
    show (insertLe le a (pySort le l)).Perm (a :: l)
    exact (insertLe_perm le a (pySort le l)).trans ((pySort_perm le l).cons a)

theorem insertLe_pairwise {α : Type} {le : α → α → Bool}
    (htrans : ∀ a b c, le a b = true → le b c = true → le a c = true)
    (htot : ∀ a b, (le a b || le b a) = true) (x : α) :
    ∀ l : List α, l.Pairwise (fun a b => le a b = true) →
      (insertLe le x l).Pairwise (fun a b => le a b = true)
  | [], _ => by simp [insertLe]
  | y :: ys, h => by
    obtain ⟨hy, hys⟩ := List.pairwise_cons.mp h
    unfold insertLe
    split
    · rename_i hcond
      have hyx : le y x = true := (Bool.and_eq_true _ _).mp hcond |>.1
      refine List.pairwise_cons.mpr ⟨?_, insertLe_pairwise htrans htot x ys hys⟩
      intro z hz
      rcases List.mem_cons.mp ((insertLe_perm le x ys).mem_iff.mp hz) with hz | hz
      · exact hz ▸ hyx
      · exact hy z hz
    · rename_i hcond
      have hxy : le x y = true := by
        cases hxylt : le x y
        · rcases Bool.or_eq_true_iff.mp (htot x y) with h | h
          · rw [hxylt] at h
            exact h
          · exact absurd (by simp [h, hxylt] : (le y x && !le x y) = true) hcond
        · rfl
      refine List.pairwise_cons.mpr ⟨?_, h⟩
      intro z hz
      rcases List.mem_cons.mp hz with hz | hz
      · exact hz ▸ hxy
      · exact htrans x y z hxy (hy z hz)

theorem pySort_pairwise {α : Type} {le : α → α → Bool}
    (htrans : ∀ a b c, le a b = true → le b c = true → le a c = true)
    (htot : ∀ a b, (le a b || le b a) = true) :
    ∀ l : List α, (pySort le l).Pairwise (fun a b => le a b = true)
  | [] => by simp [pySort]
  | a :: l => by
    show (insertLe le a (pySort le l)).Pairwise _
    exact insertLe_pairwise htrans htot a (pySort le l) (pySort_pairwise htrans htot l)

theorem insertLe_filter_pos {α : Type} {le : α → α → Bool} (p : α → Bool) {x : α}
    (hx : p x = true) :
    ∀ l : List α, (∀ y ∈ l, p y = true → le x y = true ∧ le y x = true) →
      (insertLe le x l).filter p = x :: l.filter p
  | [], _ => by simp [insertLe, hx]
  | y :: ys, h => by
    unfold insertLe
    split
    · rename_i hcond
      have hpy : p y = false := by
        cases hpy : p y
        · rfl
        · have := (h y (List.mem_cons_self y ys) hpy).1
          rw [Bool.and_eq_true] at hcond
          rw [this] at hcond
          simpa using hcond.2
      rw [List.filter_cons_of_neg (by simp [hpy]),
        insertLe_filter_pos p hx ys (fun z hz => h z (List.mem_cons_of_mem y hz)),
        List.filter_cons_of_neg (by simp [hpy])]
    · rw [List.filter_cons_of_pos (by simp [hx])]

theorem insertLe_filter_neg {α : Type} {le : α → α → Bool} (p : α → Bool) {x : α}
    (hx : p x = false) :
    ∀ l : List α, (insertLe le x l).filter p = l.filter p
  | [] => by simp [insertLe, hx]
  | y :: ys => by
    unfold insertLe
    split
    · cases hpy : p y
      · rw [List.filter_cons_of_neg (by simp [hpy]),
          List.filter_cons_of_neg (by simp [hpy]), insertLe_filter_neg p hx ys]
      · rw [List.filter_cons_of_pos (by simp [hpy]),
          List.filter_cons_of_pos (by simp [hpy]), insertLe_filter_neg p hx ys]
    · rw [List.filter_cons_of_neg (by simp [hx])]

theorem pySort_filter_ties {α : Type} {le : α → α → Bool} (p : α → Bool)
    (hties : ∀ a b, p a = true → p b = true → le a b = true) :
    ∀ l : List α, (pySort le l).filter p = l.filter p
  | [] => rfl
  | a :: l => by
    show (insertLe le a (pySort le l)).filter p = _
    cases hp : p a
    · rw [insertLe_filter_neg p hp, pySort_filter_ties p hties l,
        List.filter_cons_of_neg (by simp [hp])]
    · rw [insertLe_filter_pos p hp (pySort le l)
        (fun y _ hy => ⟨hties a y hp hy, hties y a hy hp⟩),
        pySort_filter_ties p hties l, List.filter_cons_of_pos (by simp [hp])]

/-! ### C7: the listing sort is an ascending, case-insensitive, stable
tuple sort -/

/-- C7: for every project dictionary, section mapping and task population, the
sorted sequence produced by the listing sort is (1) ascending under the
case-insensitive tuple key (project name lower-cased, section name lower-cased
or empty when the task has no section or the column is off, content
lower-cased) — every pair in order satisfies the key comparison; (2) a
permutation of the input; and (3) stable: for every key value, the tasks
carrying that key appear in exactly their pre-sort relative order. -/
theorem C7_sort_order (ps : List Project) (smap : List TodoSection) (tasks : List Task) :
    (pySort (taskLe ps smap) tasks).Pairwise (fun a b => taskLe ps smap a b = true) ∧
    (pySort (taskLe ps smap) tasks).Perm tasks ∧
    (∀ k : SKey,
      (pySort (taskLe ps smap) tasks).filter (fun t => sort_key ps smap t == k) =
        tasks.filter (fun t => sort_key ps smap t == k)) := by
  refine ⟨?_, pySort_perm _ tasks, ?_⟩
  · exact @pySort_pairwise Task (taskLe ps smap)
      (fun a b c h1 h2 => keyLe_trans h1 h2)
      (fun a b => keyLe_total (sort_key ps smap a) (sort_key ps smap b)) tasks
  · intro k
    exact pySort_filter_ties _
      (fun a b ha hb => keyLe_of_eq ((beq_iff_eq.mp ha).trans (beq_iff_eq.mp hb).symm))
      tasks

/-! ### C10: listing commands sort cached slots in place — except labels,
which are never cached -/

/-- Counterexample to C10 as stated for labels: `list_labels` returns the
client cache state exactly unchanged (there is no cached label sequence to
sort), and a repeated labels listing performs a fresh remote fetch each time;
only the returned display copy is sorted. -/
theorem C10_counterexample :
    (list_labels Sample.remoteOk initState).2.1 = initState ∧
    (list_labels Sample.remoteOk initState).2.2 = [Fetch.labels] ∧
    (list_labels Sample.remoteOk (list_labels Sample.remoteOk initState).2.1).2.2 =
      [Fetch.labels] ∧
    (list_labels Sample.remoteOk initState).1 =
      .ok [⟨21, "Alpha"⟩, ⟨20, "beta"⟩] :=
  ⟨rfl, rfl, rfl, by decide⟩

/-- C10 (amended): the project and section listing commands sort the cached
sequence in place — after a successful `list_projects`, the projects slot
holds the name-sorted permutation of the fetched sequence and every later
name resolution scans that sorted order; likewise `list_sections` leaves the
project's section slot name-sorted. (Labels are excluded: they are not
cached, see the counterexample.) -/
theorem C10_list_sorts_cached_slots :
    (∀ (r : Remote) (s : ClientState) ps s1 l, get_projects r s = (.ok ps, s1, l) →
      list_projects r s =
        (.ok (sortByNameLower ps), { s1 with projects := some (sortByNameLower ps) }, l) ∧
      (sortByNameLower ps).Perm ps ∧
      (sortByNameLower ps).Pairwise
        (fun a b => strLeB (pyLower a.name) (pyLower b.name) = true) ∧
      (∀ inp,
        find_project_id_part r { s1 with projects := some (sortByNameLower ps) } inp =
          (.ok (project_scan (sortByNameLower ps) inp),
           { s1 with projects := some (sortByNameLower ps) }, []))) ∧
    (∀ (r : Remote) (s : ClientState) pname pid s1 l1 ss s2 l2,
      find_project_id_part r s pname = (.ok (some pid), s1, l1) → pid ≠ 0 →
      get_sections r s1 pid = (.ok ss, s2, l2) →
      ∃ s3, list_sections r s pname = (.ok (sortSecsByNameLower ss), s3, l1 ++ l2) ∧
        s3.sections pid = some (sortSecsByNameLower ss) ∧
        (sortSecsByNameLower ss).Perm ss ∧
        (∀ snp, find_section_id_part r s3 pid snp =
          (.ok (section_scan (sortSecsByNameLower ss) snp), s3, []))) := by
  constructor
  · intro r s ps s1 l hget
    refine ⟨?_, pySort_perm _ ps, ?_, ?_⟩
    · simp [list_projects, hget, sortByNameLower]
    · exact @pySort_pairwise Project (fun a b => strLeB (pyLower a.name) (pyLower b.name))
        (fun a b c h1 h2 => by exact strLeB_trans h1 h2)
        (fun a b => strLeB_total (pyLower a.name) (pyLower b.name)) ps
    · intro inp
      simp [find_project_id_part, get_projects]
  · intro r s pname pid s1 l1 ss s2 l2 hfind hpid hsec
    have htr : pyTruthyN (some pid) = true := by simp [pyTruthyN, hpid]
    refine ⟨{ s2 with sections :=
        fun k => if k == pid then some (sortSecsByNameLower ss) else s2.sections k },
      ?_, ?_, pySort_perm _ ss, ?_⟩
    · simp [list_sections, ebind, hfind, htr, hsec]
    · simp
    · intro snp
      simp [find_section_id_part, get_sections]

/-! ### C2: temporal filters — union, de-duplication, recurring narrowing -/

theorem dateLt_irrefl (d : PyDate) : dateLt d d = false := by
  simp [dateLt]

theorem mem_upsertById {acc : List Task} {x t : Task} (h : t ∈ upsertById acc x) :
    t ∈ acc ∨ t = x := by
  unfold upsertById at h
  split at h
  · rcases List.mem_map.mp h with ⟨u, hu, he⟩
    by_cases hid : (u.id == x.id) = true
    · rw [if_pos hid] at he
      exact Or.inr he.symm
    · rw [if_neg hid] at he
      exact Or.inl (he ▸ hu)
  · rcases List.mem_append.mp h with h | h
    · exact Or.inl h
    · right
      simpa using h

theorem mem_of_mem_foldl_upsert :
    ∀ (u acc : List Task) (t : Task), t ∈ u.foldl upsertById acc → t ∈ acc ∨ t ∈ u
  | [], _, _, h => Or.inl h
  | x :: xs, acc, t, h => by
    rcases mem_of_mem_foldl_upsert xs (upsertById acc x) t h with h' | h'
    · rcases mem_upsertById h' with h'' | h''
      · exact Or.inl h''
      · exact Or.inr (h'' ▸ List.mem_cons_self x xs)
    · exact Or.inr (List.mem_cons_of_mem x h')

theorem mem_of_mem_dedupById {u : List Task} {t : Task} (h : t ∈ dedupById u) : t ∈ u := by
  rcases mem_of_mem_foldl_upsert u [] t h with h' | h'
  · cases h'
  · exact h'

theorem upsertById_of_any_false {acc : List Task} {x : Task}
    (h : acc.any (fun u => u.id == x.id) = false) : upsertById acc x = acc ++ [x] := by
  simp [upsertById, h]

theorem foldl_upsert_eq :
    ∀ (u acc : List Task), ((acc ++ u).map Task.id).Nodup →
      u.foldl upsertById acc = acc ++ u
  | [], acc, _ => by simp
  | x :: xs, acc, h => by
    have hmap : ((acc.map Task.id) ++ (x.id :: xs.map Task.id)).Nodup := by
      simpa using h
    obtain ⟨-, -, hdisj⟩ := List.nodup_append.mp hmap
    have hx : acc.any (fun u => u.id == x.id) = false := by
      rw [List.any_eq_false]
      intro u hu
      simp only [beq_iff_eq]
      intro he
      exact hdisj (List.mem_map_of_mem Task.id hu)
        (by rw [he]; exact List.mem_cons_self _ _)
    rw [List.foldl_cons, upsertById_of_any_false hx,
      foldl_upsert_eq xs (acc ++ [x]) (by simpa using h)]
    simp

theorem dedupById_eq_self {u : List Task} (h : (u.map Task.id).Nodup) :
    dedupById u = u := by
  simpa [dedupById] using foldl_upsert_eq u [] (by simpa using h)

/-- A task cannot be due today and overdue at once. -/
theorem matches_disjoint (today : PyDate) (t : Task)
    (h1 : matches_today today t = true) (h2 : matches_overdue today t = true) : False := by
  unfold matches_today at h1
  unfold matches_overdue at h2
  cases hd : due_on t with
  | none => rw [hd] at h1; cases h1
  | some d =>
    rw [hd] at h1 h2
    simp only at h1 h2
    have hdt : d = today := by simpa using h1
    rw [hdt, dateLt_irrefl] at h2
    cases h2

/-- The union membership criterion, phrased on the due calendar date. -/
theorem matches_union_iff (today : PyDate) (t : Task) :
    (matches_today today t = true ∨ matches_overdue today t = true) ↔
      ∃ d, due_on t = some d ∧ (d = today ∨ dateLt d today = true) := by
  cases hd : due_on t with
  | none => simp [matches_today, matches_overdue, hd]
  | some d => simp [matches_today, matches_overdue, hd]

/-- C2: with task ids pairwise distinct, listing through the temporal stage
with both `today` and `overdue` requested keeps exactly the tasks whose due
calendar date equals the current date or is strictly before it; the result
has pairwise-distinct ids (each task at most once); adding `recurring` narrows
to tasks whose due specification is marked recurring; and a task with no due
specification is excluded whenever at least one temporal filter is
requested. -/
theorem C2_temporal_union (today : PyDate) (ts : List Task)
    (hids : (ts.map Task.id).Nodup) :
    (∀ t, t ∈ temporal_filter today true true false ts ↔
      (t ∈ ts ∧ ∃ d, due_on t = some d ∧ (d = today ∨ dateLt d today = true))) ∧
    ((temporal_filter today true true false ts).map Task.id).Nodup ∧
    (∀ t, t ∈ temporal_filter today true true true ts ↔
      (t ∈ ts ∧ (∃ d, due_on t = some d ∧ (d = today ∨ dateLt d today = true)) ∧
        task_recurring t = true)) ∧
    (∀ fT fO fR, (fT || fO || fR) = true → ∀ t ∈ ts, t.due = none →
      t ∉ temporal_filter today fT fO fR ts) := by
  have hinj := List.inj_on_of_nodup_map hids
  have hu_ids : ((ts.filter (matches_today today) ++
      ts.filter (matches_overdue today)).map Task.id).Nodup := by
    rw [List.map_append]
    refine List.nodup_append.mpr ⟨?_, ?_, ?_⟩
    · exact hids.sublist ((ts.filter_sublist).map Task.id)
    · exact hids.sublist ((ts.filter_sublist).map Task.id)
    · intro a ha1 ha2
      rcases List.mem_map.mp ha1 with ⟨x, hx, hxa⟩
      rcases List.mem_map.mp ha2 with ⟨y, hy, hya⟩
      obtain ⟨hxts, hxT⟩ := List.mem_filter.mp hx
      obtain ⟨hyts, hyO⟩ := List.mem_filter.mp hy
      have : x = y := hinj hxts hyts (hxa.trans hya.symm)
      exact matches_disjoint today x hxT (this ▸ hyO)
  have hded := dedupById_eq_self hu_ids
  have hTF : temporal_filter today true true false ts =
      ts.filter (matches_today today) ++ ts.filter (matches_overdue today) := by
    unfold temporal_filter
    simp [hded]
  have hmem : ∀ t, t ∈ temporal_filter today true true false ts ↔
      (t ∈ ts ∧ (matches_today today t = true ∨ matches_overdue today t = true)) := by
    intro t
    rw [hTF, List.mem_append, List.mem_filter, List.mem_filter]
    constructor
    · rintro (⟨h1, h2⟩ | ⟨h1, h2⟩)
      · exact ⟨h1, Or.inl h2⟩
      · exact ⟨h1, Or.inr h2⟩
    · rintro ⟨h1, h2 | h2⟩
      · exact Or.inl ⟨h1, h2⟩
      · exact Or.inr ⟨h1, h2⟩
  refine ⟨?_, ?_, ?_, ?_⟩
  · intro t
    rw [hmem t, matches_union_iff today t]
  · rw [hTF]
    exact hu_ids
  · intro t
    have hTT : temporal_filter today true true true ts =
        (temporal_filter today true true false ts).filter task_recurring := by
      unfold temporal_filter
      simp
    rw [hTT, List.mem_filter, hmem t, matches_union_iff today t, and_assoc]
  · intro fT fO fR hOr t hts hdue hcontra
    have hdon : due_on t = none := by simp [due_on, hdue]
    cases hTO : (fT || fO) with
    | true =>
      have hX : t ∈ dedupById ((if fT then ts.filter (matches_today today) else []) ++
          (if fO then ts.filter (matches_overdue today) else [])) := by
        unfold temporal_filter at hcontra
        rw [hTO] at hcontra
        simp only [if_true] at hcontra
        cases hfR : fR
        · rw [hfR] at hcontra
          simpa using hcontra
        · rw [hfR] at hcontra
          simp only [if_true] at hcontra
          exact (List.mem_filter.mp hcontra).1
      have := mem_of_mem_dedupById hX
      rcases List.mem_append.mp this with h | h
      · cases hfT : fT
        · rw [hfT] at h; simp at h
        · rw [hfT] at h
          simp only [if_true] at h
          have := (List.mem_filter.mp h).2
          rw [matches_today, hdon] at this
          cases this
      · cases hfO : fO
        · rw [hfO] at h; simp at h
        · rw [hfO] at h
          simp only [if_true] at h
          have := (List.mem_filter.mp h).2
          rw [matches_overdue, hdon] at this
          cases this
    | false =>
      have hfT : fT = false := by
        cases hfT : fT
        · rfl
        · rw [hfT] at hTO; simp at hTO
      have hfO : fO = false := by
        cases hfO : fO
        · rfl
        · rw [hfO] at hTO; simp at hTO
      have hfR : fR = true := by
        rw [hfT, hfO] at hOr
        simpa using hOr
      unfold temporal_filter at hcontra
      rw [hfT, hfO, hfR] at hcontra
      simp only [Bool.or_self, if_false, if_true] at hcontra
      have := (List.mem_filter.mp hcontra).2
      rw [task_recurring, hdue] at this
      cases this

/-- Witness for C2 on the spec's own scenario: tasks A (due today), B (due
yesterday), C (due today and recurring), D (no due date), with distinct ids. -/
theorem C2_temporal_union_witness :
    (∀ t, t ∈ temporal_filter Sample.today true true false
        [Sample.t1, Sample.t2, Sample.t3, Sample.t4] ↔
      (t ∈ [Sample.t1, Sample.t2, Sample.t3, Sample.t4] ∧
        ∃ d, due_on t = some d ∧ (d = Sample.today ∨ dateLt d Sample.today = true))) ∧
    ((temporal_filter Sample.today true true false
        [Sample.t1, Sample.t2, Sample.t3, Sample.t4]).map Task.id).Nodup ∧
    (∀ t, t ∈ temporal_filter Sample.today true true true
        [Sample.t1, Sample.t2, Sample.t3, Sample.t4] ↔
      (t ∈ [Sample.t1, Sample.t2, Sample.t3, Sample.t4] ∧
        (∃ d, due_on t = some d ∧ (d = Sample.today ∨ dateLt d Sample.today = true)) ∧
        task_recurring t = true)) ∧
    (∀ fT fO fR, (fT || fO || fR) = true →
      ∀ t ∈ [Sample.t1, Sample.t2, Sample.t3, Sample.t4], t.due = none →
      t ∉ temporal_filter Sample.today fT fO fR
        [Sample.t1, Sample.t2, Sample.t3, Sample.t4]) :=
  C2_temporal_union Sample.today [Sample.t1, Sample.t2, Sample.t3, Sample.t4] (by decide)

/-! ### C5: section filter without project filter -/

/-- Every fetch a scope-`"all"` `get_tasks` call can log is the all-tasks
fetch. -/
theorem get_tasks_none_log (r : Remote) (s : ClientState) :
    ∀ f ∈ (get_tasks r s none).2.2, f = Fetch.tasksAll := by
  cases hk : s.tasks none with
  | some ts => simp [get_tasks, hk]
  | none =>
    cases ha : r.tasksAll with
    | ok ts => simp [get_tasks, hk, taskFetch, ha]
    | error e => simp [get_tasks, hk, taskFetch, ha]

/-- On a cold `"all"` slot, `get_tasks` logs exactly one all-tasks fetch. -/
theorem get_tasks_none_cold_log (r : Remote) (s : ClientState) (h : s.tasks none = none) :
    (get_tasks r s none).2.2 = [Fetch.tasksAll] := by
  cases ha : r.tasksAll with
  | ok ts => simp [get_tasks, h, taskFetch, ha]
  | error e => simp [get_tasks, h, taskFetch, ha]

/-- Counterexample to C5 as stated: a task listing with a section filter and
no project filter does report an error, but only after `get_tasks` has already
performed a remote fetch of all tasks — the fetch log is not empty, so the
operation does not abort before any remote call. -/
theorem C5_counterexample :
    (list_tasks Sample.remoteOk initState Sample.today
      { section_name := some "SecA" }).1 = .error () ∧
    (list_tasks Sample.remoteOk initState Sample.today
      { section_name := some "SecA" }).2.2 = [Fetch.tasksAll] ∧
    [Fetch.tasksAll] ≠ ([] : List Fetch) :=
  ⟨by decide, by decide, by decide⟩

/-- C5 (amended): a section filter given without a truthy project filter is
reported as an error and the listing aborts before any project or section
fetch — but after the initial task fetch for the `"all"` scope: every logged
fetch is the all-tasks fetch, and on a cold cache the log is exactly one
all-tasks fetch. -/
theorem C5_section_requires_project (r : Remote) (s : ClientState) (today : PyDate)
    (o : ListOpts) (hs : pyTruthyS o.section_name = true)
    (hp : pyTruthyS o.project_name = false) :
    (list_tasks r s today o).1 = .error () ∧
    (∀ f ∈ (list_tasks r s today o).2.2, f = Fetch.tasksAll) ∧
    (s.tasks none = none → (list_tasks r s today o).2.2 = [Fetch.tasksAll]) := by
  rcases hg : get_tasks r s none with ⟨v, s2, l2⟩
  have hlog : ∀ f ∈ l2, f = Fetch.tasksAll := by
    have := get_tasks_none_log r s
    rw [hg] at this
    exact this
  have hcold : s.tasks none = none → l2 = [Fetch.tasksAll] := by
    intro h
    have := get_tasks_none_cold_log r s h
    rw [hg] at this
    exact this
  cases v with
  | error e =>
    have hout : list_tasks r s today o = (.error (), s2, l2) := by
      simp [list_tasks, scope_tasks, hp, ebind, hg]
    rw [hout]
    exact ⟨rfl, hlog, fun h => hcold h⟩
  | ok ts =>
    have hout : list_tasks r s today o = (.error (), s2, l2) := by
      simp [list_tasks, scope_tasks, section_stage, hp, hs, ebind, efail, hg]
    rw [hout]
    exact ⟨rfl, hlog, fun h => hcold h⟩

/-- Witness for C5 (amended) at a concrete input: section filter "SecA",
no project filter, cold cache. -/
theorem C5_section_requires_project_witness :
    (list_tasks Sample.remoteOk initState Sample.today
      { section_name := some "SecA", show_ids := true }).1 = .error () ∧
    (∀ f ∈ (list_tasks Sample.remoteOk initState Sample.today
      { section_name := some "SecA", show_ids := true }).2.2, f = Fetch.tasksAll) ∧
    (initState.tasks none = none →
      (list_tasks Sample.remoteOk initState Sample.today
        { section_name := some "SecA", show_ids := true }).2.2 = [Fetch.tasksAll]) :=
  C5_section_requires_project Sample.remoteOk initState Sample.today
    { section_name := some "SecA", show_ids := true } (by decide) (by decide)

/-! ### C8: duplicate detection before create -/

/-- Counterexample to C8 as stated: the existing task "📌Buy milk" is not
equal to the new content "Buy milk" after trimming and case-insensitive
comparison, yet `create_task` skips the mutation as a duplicate, because the
code also strips emoji characters before comparing. -/
theorem C8_counterexample :
    (create_task Sample.remoteEmoji initState "Buy milk" none none none false).1 =
      .ok (.duplicate Sample.tEmoji) ∧
    pyLower (pyStrip Sample.tEmoji.content) ≠ pyLower (pyStrip "Buy milk") ∧
    norm_content Sample.tEmoji.content = norm_content "Buy milk" :=
  ⟨by decide, by decide, by decide⟩

/-- C8 (amended): a create without `force` performs the remote mutation iff no
existing entity in the resolved scope matches the new name/content, where the
comparison is trimmed and case-insensitive — and for tasks additionally
emoji-stripped (`remove_emojis(content.strip().lower())`). A duplicate is a
reported no-op with no mutation and no invalidation; `force` (tasks only)
bypasses the duplicate check entirely, not even fetching the scope's tasks. -/
theorem C8_duplicate_check :
    (∀ (r : Remote) (s : ClientState) content ts newT,
      (get_tasks r s none).1 = .ok ts → r.add_task = .ok newT →
      ((∀ t ∈ ts, norm_content t.content ≠ norm_content content) →
        create_task r s content none none none false =
          (.ok (.created newT false), invalidate_tasks ((get_tasks r s none).2.1) none,
           (get_tasks r s none).2.2)) ∧
      (∀ t0 l1 l2, ts = l1 ++ t0 :: l2 →
        norm_content t0.content = norm_content content →
        (∀ t ∈ l1, norm_content t.content ≠ norm_content content) →
        create_task r s content none none none false =
          (.ok (.duplicate t0), (get_tasks r s none).2.1, (get_tasks r s none).2.2))) ∧
    (∀ (r : Remote) (s : ClientState) content newT, r.add_task = .ok newT →
      create_task r s content none none none true =
        (.ok (.created newT false), invalidate_tasks s none, [])) ∧
    (∀ (r : Remote) (s : ClientState) name ps newP,
      (get_projects r s).1 = .ok ps → r.add_project = .ok newP →
      ((∀ p ∈ ps, pyLower (pyStrip p.name) ≠ pyLower (pyStrip name)) →
        create_project r s name =
          (.ok .created, invalidate_projects ((get_projects r s).2.1),
           (get_projects r s).2.2)) ∧
      ((∃ p ∈ ps, pyLower (pyStrip p.name) = pyLower (pyStrip name)) →
        create_project r s name =
          (.ok .duplicate, (get_projects r s).2.1, (get_projects r s).2.2))) ∧
    (∀ (r : Remote) (s : ClientState) pname sname pid ss newS,
      (find_project_id_part r s pname).1 = .ok (some pid) → pid ≠ 0 →
      (get_sections r ((find_project_id_part r s pname).2.1) pid).1 = .ok ss →
      r.add_section = .ok newS →
      ((∀ sec ∈ ss, pyLower (pyStrip sec.name) ≠ pyLower (pyStrip sname)) →
        (create_section r s pname sname).1 = .ok .created) ∧
      ((∃ sec ∈ ss, pyLower (pyStrip sec.name) = pyLower (pyStrip sname)) →
        (create_section r s pname sname).1 = .ok .duplicate)) ∧
    (∀ (r : Remote) (s : ClientState) name ls newL,
      r.labels = .ok ls → r.add_label = .ok newL →
      ((∀ la ∈ ls, pyLower (pyStrip la.name) ≠ pyLower (pyStrip name)) →
        create_label r s name = (.ok .created, s, [.labels])) ∧
      ((∃ la ∈ ls, pyLower (pyStrip la.name) = pyLower (pyStrip name)) →
        create_label r s name = (.ok .duplicate, s, [.labels]))) := by
  refine ⟨?_, ?_, ?_, ?_, ?_⟩
  · intro r s content ts newT hget hadd
    rcases hg : get_tasks r s none with ⟨v, s1, l1⟩
    rw [hg] at hget
    simp only at hget
    subst hget
    constructor
    · intro hno
      have hfind : ts.find? (fun t => norm_content t.content == norm_content content) =
          none :=
        List.find?_eq_none.mpr fun t ht => by simp [hno t ht]
      simp [create_task, create_task_sec, create_task_dup_check, create_task_mutate,
        pyTruthyS, pyTruthyN, ebind, hg, hfind, hadd]
    · intro t0 l2 l3 hsplit heq hl2
      have hfind : ts.find? (fun t => norm_content t.content == norm_content content) =
          some t0 := by
        rw [hsplit]
        exact find?_append_first _ l2 t0 l3 (fun y hy => by simp [hl2 y hy]) (by simp [heq])
      simp [create_task, create_task_sec, create_task_dup_check, pyTruthyS, pyTruthyN,
        ebind, hg, hfind]
  · intro r s content newT hadd
    simp [create_task, create_task_sec, create_task_dup_check, create_task_mutate,
      pyTruthyS, ebind, hadd]
  · intro r s name ps newP hget hadd
    rcases hg : get_projects r s with ⟨v, s1, l1⟩
    rw [hg] at hget
    simp only at hget
    subst hget
    constructor
    · intro hno
      have hfind : ps.find?
          (fun p => pyLower (pyStrip p.name) == pyLower (pyStrip name)) = none :=
        List.find?_eq_none.mpr fun p hp => by simp [hno p hp]
      simp [create_project, ebind, hg, hfind, hadd]
    · rintro ⟨p, hp, heq⟩
      have hsome : (ps.find?
          (fun p => pyLower (pyStrip p.name) == pyLower (pyStrip name))).isSome := by
        rw [List.find?_isSome]
        exact ⟨p, hp, by simp [heq]⟩
      rcases hq : ps.find? (fun p => pyLower (pyStrip p.name) == pyLower (pyStrip name))
        with _ | q
      · rw [hq] at hsome; cases hsome
      · simp [create_project, ebind, hg, hq]
  · intro r s pname sname pid ss newS hfind hpid hsec hadd
    rcases hf : find_project_id_part r s pname with ⟨fv, s1, l1⟩
    rw [hf] at hfind hsec
    simp only at hfind hsec
    subst hfind
    rcases hsc : get_sections r s1 pid with ⟨sv, s2, l2⟩
    rw [hsc] at hsec
    simp only at hsec
    subst hsec
    have htr : pyTruthyN (some pid) = true := by simp [pyTruthyN, hpid]
    constructor
    · intro hno
      have hfd : ss.find?
          (fun sec => pyLower (pyStrip sec.name) == pyLower (pyStrip sname)) = none :=
        List.find?_eq_none.mpr fun sec hsc' => by simp [hno sec hsc']
      simp [create_section, ebind, hf, htr, hsc, hfd, hadd]
    · rintro ⟨sec, hsmem, heq⟩
      have hsome : (ss.find?
          (fun sec => pyLower (pyStrip sec.name) == pyLower (pyStrip sname))).isSome := by
        rw [List.find?_isSome]
        exact ⟨sec, hsmem, by simp [heq]⟩
      rcases hq : ss.find? (fun sec => pyLower (pyStrip sec.name) == pyLower (pyStrip sname))
        with _ | q
      · rw [hq] at hsome; cases hsome
      · simp [create_section, ebind, hf, htr, hsc, hq]
  · intro r s name ls newL hls hadd
    constructor
    · intro hno
      have hfd : ls.find?
          (fun la => pyLower (pyStrip la.name) == pyLower (pyStrip name)) = none :=
        List.find?_eq_none.mpr fun la hla => by simp [hno la hla]
      simp [create_label, hls, hfd, hadd]
    · rintro ⟨la, hla, heq⟩
      have hsome : (ls.find?
          (fun la => pyLower (pyStrip la.name) == pyLower (pyStrip name))).isSome := by
        rw [List.find?_isSome]
        exact ⟨la, hla, by simp [heq]⟩
      rcases hq : ls.find? (fun la => pyLower (pyStrip la.name) == pyLower (pyStrip name))
        with _ | q
      · rw [hq] at hsome; cases hsome
      · simp [create_label, hls, hq]

/-- Witness for C8 at concrete inputs: a fresh content is created, the
emoji-equivalent content is skipped as a duplicate, and `force` creates
without fetching the scope at all. -/
theorem C8_duplicate_check_witness :
    (create_task Sample.remoteOk initState "Brand new" none none none false =
      (.ok (.created Sample.t1 false),
       invalidate_tasks ((get_tasks Sample.remoteOk initState none).2.1) none,
       (get_tasks Sample.remoteOk initState none).2.2)) ∧
    (create_task Sample.remoteEmoji initState "Buy milk" none none none false =
      (.ok (.duplicate Sample.tEmoji),
       (get_tasks Sample.remoteEmoji initState none).2.1,
       (get_tasks Sample.remoteEmoji initState none).2.2)) ∧
    (create_task Sample.remoteEmoji initState "Buy milk" none none none true =
      (.ok (.created Sample.t1 false), invalidate_tasks initState none, [])) :=
  ⟨((C8_duplicate_check.1 Sample.remoteOk initState "Brand new"
      [Sample.t2, Sample.t1, Sample.t4, Sample.t3] Sample.t1 rfl rfl).1 (by decide)),
   ((C8_duplicate_check.1 Sample.remoteEmoji initState "Buy milk"
      [Sample.tEmoji] Sample.t1 rfl rfl).2 Sample.tEmoji [] [] rfl (by decide)
      (by decide)),
   C8_duplicate_check.2.1 Sample.remoteEmoji initState "Buy milk" Sample.t1 rfl⟩

/-! ### C4: the Section column/field when no remaining task has a section -/

/-- Counterexample to C4 as stated: with a single task carrying no section id
and no project/section filter, table mode omits the Section column, but
structured mode still emits a `"section"` field (with value `null`) in every
entry — the field is not absent from the structured output. -/
theorem C4_counterexample :
    ([Sample.t4].all (fun t => !(pyTruthyN t.section_id)) = true) ∧
    (list_tasks { Sample.remoteOk with tasksAll := .ok [Sample.t4] } initState
        Sample.today { output_json := true }).1 =
      .ok (.jsonOut [[("id", .jnat 4), ("content", .jstr "Delta"),
        ("project", .jstr "Inbox"), ("priority", .jnat 4), ("due", .jnull),
        ("section", .jnull), ("parent", .jnull)]]) ∧
    ("section" ∈ ([("id", JVal.jnat 4), ("content", JVal.jstr "Delta"),
        ("project", JVal.jstr "Inbox"), ("priority", JVal.jnat 4), ("due", JVal.jnull),
        ("section", JVal.jnull), ("parent", JVal.jnull)].map Prod.fst)) ∧
    (list_tasks { Sample.remoteOk with tasksAll := .ok [Sample.t4] } initState
        Sample.today {}).1 =
      .ok (.tableOut ["Content", "Project", "Priority", "Due"]
        [["Delta", "Inbox", "4", NA]]) ∧
    ("Section" ∉ ["Content", "Project", "Priority", "Due"]) :=
  ⟨by decide, by decide, by decide, by decide, by decide⟩

/-- C4 (amended): for a listing with no project and no section filter in which
no remaining task carries a truthy section id, the Section column is absent
from the table headers, while the structured output carries a `"section"`
field with value `null` in every entry; both modes render the same sorted
task sequence through their per-task renderers, which agree on the content
and priority of every task. -/
theorem C4_render_modes (r : Remote) (s : ClientState) (today : PyDate)
    (show_ids show_subtasks fT fO fR strip : Bool) (ts0 : List Task) (ps : List Project)
    (tasks3 : List Task)
    (hts : (get_tasks r s none).1 = .ok ts0)
    (hall : (if show_subtasks then ts0 else ts0.filter (fun t => t.parent_id == none)).all
      (fun t => !(pyTruthyN t.section_id)) = true)
    (hps : (get_projects r ((get_tasks r s none).2.1)).1 = .ok ps)
    (htasks3 : tasks3 = temporal_filter today fT fO fR
      (if show_subtasks then ts0 else ts0.filter (fun t => t.parent_id == none))) :
    list_tasks r s today ⟨show_ids, show_subtasks, none, none, false, fT, fO, fR, strip⟩ =
      (.ok (.tableOut (table_headers show_ids show_subtasks false)
          ((pySort (taskLe ps []) tasks3).map
            (table_row strip show_ids show_subtasks false ps [] tasks3))),
       (get_projects r ((get_tasks r s none).2.1)).2.1,
       (get_tasks r s none).2.2 ++ (get_projects r ((get_tasks r s none).2.1)).2.2) ∧
    "Section" ∉ table_headers show_ids show_subtasks false ∧
    list_tasks r s today ⟨show_ids, show_subtasks, none, none, true, fT, fO, fR, strip⟩ =
      (.ok (.jsonOut ((pySort (taskLe ps []) tasks3).map
          (json_entry strip show_subtasks false ps [] tasks3))),
       (get_projects r ((get_tasks r s none).2.1)).2.1,
       (get_tasks r s none).2.2 ++ (get_projects r ((get_tasks r s none).2.1)).2.2) ∧
    (∀ t, (json_entry strip show_subtasks false ps [] tasks3 t).lookup "section" =
      some .jnull) ∧
    (∀ t,
      (json_entry strip show_subtasks false ps [] tasks3 t).lookup "content" =
        some (.jstr (maybe_strip_emojis strip t.content)) ∧
      (table_row strip show_ids show_subtasks false ps [] tasks3 t).get?
        (if show_ids then 1 else 0) = some (maybe_strip_emojis strip t.content) ∧
      (json_entry strip show_subtasks false ps [] tasks3 t).lookup "priority" =
        some (.jnat t.priority) ∧
      (table_row strip show_ids show_subtasks false ps [] tasks3 t).get?
        ((if show_ids then 1 else 0) + (if show_subtasks then 1 else 0) + 2) =
        some (toString t.priority)) := by
  subst htasks3
  rcases hg : get_tasks r s none with ⟨v, s2, l2⟩
  rw [hg] at hts hps
  simp only at hts hps
  subst hts
  rcases hp : get_projects r s2 with ⟨w, s6, l6⟩
  rw [hp] at hps
  simp only at hps
  subst hps
  have hany : (if show_subtasks then ts0
      else ts0.filter (fun t => t.parent_id == none)).any
      (fun t => pyTruthyN t.section_id) = false := by
    rw [List.any_eq_false]
    intro t ht
    have := List.all_eq_true.mp hall t ht
    simpa using this
  refine ⟨?_, ?_, ?_, ?_, ?_⟩
  · simp [list_tasks, scope_tasks, section_stage, ebind, pyTruthyS, hg, hp, hany]
  · cases show_ids <;> cases show_subtasks <;> decide
  · simp [list_tasks, scope_tasks, section_stage, ebind, pyTruthyS, hg, hp, hany]
  · intro t
    rfl
  · intro t
    cases show_ids <;> cases show_subtasks <;> exact ⟨rfl, rfl, rfl, rfl⟩

/-- Witness for C4 (amended) at a concrete input: four sectionless tasks in a
cold cache, default flags. -/
theorem C4_render_modes_witness :
    list_tasks Sample.remoteOk initState Sample.today
      ⟨false, false, none, none, false, false, false, false, false⟩ =
      (.ok (.tableOut (table_headers false false false)
          ((pySort (taskLe [Sample.p1, Sample.p2] [])
              (temporal_filter Sample.today false false false
                ([Sample.t2, Sample.t1, Sample.t4, Sample.t3].filter
                  (fun t => t.parent_id == none)))).map
            (table_row false false false false [Sample.p1, Sample.p2] []
              (temporal_filter Sample.today false false false
                ([Sample.t2, Sample.t1, Sample.t4, Sample.t3].filter
                  (fun t => t.parent_id == none)))))),
       (get_projects Sample.remoteOk
         ((get_tasks Sample.remoteOk initState none).2.1)).2.1,
       (get_tasks Sample.remoteOk initState none).2.2 ++
         (get_projects Sample.remoteOk
           ((get_tasks Sample.remoteOk initState none).2.1)).2.2) ∧
    "Section" ∉ table_headers false false false ∧
    list_tasks Sample.remoteOk initState Sample.today
      ⟨false, false, none, none, true, false, false, false, false⟩ =
      (.ok (.jsonOut ((pySort (taskLe [Sample.p1, Sample.p2] [])
            (temporal_filter Sample.today false false false
              ([Sample.t2, Sample.t1, Sample.t4, Sample.t3].filter
                (fun t => t.parent_id == none)))).map
          (json_entry false false false [Sample.p1, Sample.p2] []
            (temporal_filter Sample.today false false false
              ([Sample.t2, Sample.t1, Sample.t4, Sample.t3].filter
                (fun t => t.parent_id == none)))))),
       (get_projects Sample.remoteOk
         ((get_tasks Sample.remoteOk initState none).2.1)).2.1,
       (get_tasks Sample.remoteOk initState none).2.2 ++
         (get_projects Sample.remoteOk
           ((get_tasks Sample.remoteOk initState none).2.1)).2.2) ∧
    (∀ t, (json_entry false false false [Sample.p1, Sample.p2] []
        (temporal_filter Sample.today false false false
          ([Sample.t2, Sample.t1, Sample.t4, Sample.t3].filter
            (fun t => t.parent_id == none))) t).lookup "section" = some .jnull) ∧
    (∀ t,
      (json_entry false false false [Sample.p1, Sample.p2] []
        (temporal_filter Sample.today false false false
          ([Sample.t2, Sample.t1, Sample.t4, Sample.t3].filter
            (fun t => t.parent_id == none))) t).lookup "content" =
        some (.jstr (maybe_strip_emojis false t.content)) ∧
      (table_row false false false false [Sample.p1, Sample.p2] []
        (temporal_filter Sample.today false false false
          ([Sample.t2, Sample.t1, Sample.t4, Sample.t3].filter
            (fun t => t.parent_id == none))) t).get? 0 =
        some (maybe_strip_emojis false t.content) ∧
      (json_entry false false false [Sample.p1, Sample.p2] []
        (temporal_filter Sample.today false false false
          ([Sample.t2, Sample.t1, Sample.t4, Sample.t3].filter
            (fun t => t.parent_id == none))) t).lookup "priority" =
        some (.jnat t.priority) ∧
      (table_row false false false false [Sample.p1, Sample.p2] []
        (temporal_filter Sample.today false false false
          ([Sample.t2, Sample.t1, Sample.t4, Sample.t3].filter
            (fun t => t.parent_id == none))) t).get? 2 =
        some (toString t.priority)) :=
  C4_render_modes Sample.remoteOk initState Sample.today false false false false false
    false [Sample.t2, Sample.t1, Sample.t4, Sample.t3] [Sample.p1, Sample.p2]
    (temporal_filter Sample.today false false false
      ([Sample.t2, Sample.t1, Sample.t4, Sample.t3].filter
        (fun t => t.parent_id == none)))
    rfl (by decide) rfl rfl

/-- Witness for C10 (amended) at concrete inputs: listing projects from a cold
cache leaves the projects slot sorted by lower-cased name, and listing the
sections of project 10 leaves its section slot sorted. -/
theorem C10_list_sorts_cached_slots_witness :
    (list_projects Sample.remoteOk initState =
      (.ok (sortByNameLower [Sample.p1, Sample.p2]),
       { Sample.sProj with projects := some (sortByNameLower [Sample.p1, Sample.p2]) },
       [.projects])) ∧
    (∃ s3, list_sections Sample.remoteOk Sample.sProj "Inb" =
        (.ok (sortSecsByNameLower [Sample.sec1]), s3, [] ++ [.sections 10]) ∧
      s3.sections 10 = some (sortSecsByNameLower [Sample.sec1]) ∧
      (sortSecsByNameLower [Sample.sec1]).Perm [Sample.sec1] ∧
      (∀ snp, find_section_id_part Sample.remoteOk s3 10 snp =
        (.ok (section_scan (sortSecsByNameLower [Sample.sec1]) snp), s3, []))) :=
  ⟨(C10_list_sorts_cached_slots.1 Sample.remoteOk initState [Sample.p1, Sample.p2]
      Sample.sProj [.projects] rfl).1,
   C10_list_sorts_cached_slots.2 Sample.remoteOk Sample.sProj "Inb" 10 Sample.sProj []
     [Sample.sec1] Sample.sProjSec [.sections 10] rfl (by decide) rfl⟩

end Tdc
